import Mathlib

set_option maxRecDepth 8192

/-!
# Verification of the WhatsApp API gateway core

A shallow embedding, in Lean 4, of the flow-execution engine and webhook
layer of the `whatsapp-api-gateway` repository, together with theorems
settling the specification claims about it.

The embedding follows the Go sources:

* `internal/automation/flow_executor.go` — `StartFlow`, `ContinueFlow`,
  `ValidateInput`, `FindNextNodeID`, `ExecuteNode`, session helpers,
  `ReplaceVariables`, `ToInt`, `ToFloat`;
* `internal/automation/structs.go` — the graph data model;
* `internal/automation/engine.go` — `addTagToContact`;
* `internal/webhook/handler.go` — `VerifyWebhook`, `HandleMessage`;
* `internal/api/contacts.go` — `syncFlowGraph`, `getFlowGraph`;
* `internal/database/db.go` — the relational schema (in particular the
  absence of any uniqueness constraint on `conversation_sessions`);
* `internal/models/models.go` and `pkg/models/webhook.go` — row and
  payload shapes.

Go `map[string]string` values are modelled as association lists (Go map
iteration order is randomized; the model fixes list order and theorems
note where order matters).  JSON encode/decode round-trips of structured
data are modelled as the identity on the structured value.  Machine
integers are modelled as `Int` with explicit wrapping where overflow is
possible.  The `regexp` package is an external capability and is
modelled as a parameter (`RegexEngine`).
-/

/-! ## Models of Go standard-library string and number functions -/

/-- ASCII lower-casing, the fragment of Go case folding exercised here.
`strings.EqualFold` and `strconv`'s case-insensitive matching perform
Unicode simple folding; all inputs in this development are ASCII. -/
def asciiLower (c : Char) : Char :=
  if 'A' ≤ c ∧ c ≤ 'Z' then Char.ofNat (c.toNat + 32) else c

/-- Model of Go `strings.EqualFold` on the ASCII fragment. -/
def goEqualFold (a b : String) : Bool :=
  a.data.map asciiLower == b.data.map asciiLower

/-- Substring scan underlying `strings.Contains`. -/
def listContainsSub (sub : List Char) : List Char → Bool
  | [] => sub.isEmpty
  | c :: rest => if sub.isPrefixOf (c :: rest) then true else listContainsSub sub rest

/-- Model of Go `strings.Contains`. -/
def goContains (s sub : String) : Bool :=
  listContainsSub sub.data s.data

/-- Model of Go `strings.HasSuffix`. -/
def goHasSuffix (s suf : String) : Bool :=
  suf.data.isSuffixOf s.data

/-- Left-to-right, non-overlapping replacement on character lists.  The
fuel argument is an upper bound on the number of loop iterations; it is
always instantiated with the length of the subject plus one, which
suffices because each iteration consumes at least one character when
`old` is nonempty. -/
def replaceAllAux (old new : List Char) : Nat → List Char → List Char
  | 0, s => s
  | _ + 1, [] => []
  | fuel + 1, c :: rest =>
    if old.isPrefixOf (c :: rest) then
      new ++ replaceAllAux old new fuel ((c :: rest).drop old.length)
    else
      c :: replaceAllAux old new fuel rest

/-- Insertion of `new` before every character and at the end, Go's
`strings.Replace` behaviour for an empty pattern. -/
def interleaveEmptyPattern (new : List Char) : List Char → List Char
  | [] => new
  | c :: rest => new ++ c :: interleaveEmptyPattern new rest

/-- Model of Go `strings.ReplaceAll`. -/
def goReplaceAll (s old new : String) : String :=
  if old.data.isEmpty then ⟨interleaveEmptyPattern new.data s.data⟩
  else ⟨replaceAllAux old.data new.data (s.data.length + 1) s.data⟩

def isDigitChar (c : Char) : Bool := '0' ≤ c ∧ c ≤ '9'

def isHexLetter (c : Char) : Bool := 'a' ≤ asciiLower c ∧ asciiLower c ≤ 'f'

def digitValNat (c : Char) : Nat := c.toNat - '0'.toNat

def hexValNat (c : Char) : Nat :=
  if isDigitChar c then digitValNat c else (asciiLower c).toNat - 'a'.toNat + 10

/-- Decimal digit accumulator used by the `strconv.Atoi` model. -/
def digitsToNat : Nat → List Char → Option Nat
  | acc, [] => some acc
  | acc, c :: rest =>
    if isDigitChar c then digitsToNat (acc * 10 + digitValNat c) rest else none

/-- Model of Go `strconv.Atoi` (`ParseInt` base 10, bit size 64):
optional sign, one or more decimal digits, value within the signed
64-bit range; `none` models a non-nil error. -/
def goAtoi (s : String) : Option Int :=
  let signBody : Bool × List Char :=
    match s.data with
    | '+' :: r => (false, r)
    | '-' :: r => (true, r)
    | r => (false, r)
  match signBody.2 with
  | [] => none
  | _ :: _ =>
    match digitsToNat 0 signBody.2 with
    | none => none
    | some n =>
      let v : Int := if signBody.1 then -(n : Int) else (n : Int)
      if -(2 ^ 63) ≤ v ∧ v ≤ 2 ^ 63 - 1 then some v else none

/-- Two's-complement wrap of a signed 64-bit Go `int`. -/
def intWrap64 (v : Int) : Int :=
  ((v + 2 ^ 63) % 2 ^ 64) - 2 ^ 63

/-- An exact fraction (numerator over a positive power-of-base
denominator), the representation used for parsed numeric values.  Kept
unreduced so that all arithmetic is plain `Int`/`Nat` arithmetic. -/
structure GoNum where
  num : Int
  den : Nat
deriving DecidableEq

/-- Value comparison of fractions (denominators are positive by
construction). -/
def GoNum.ltv (a b : GoNum) : Bool :=
  a.num * (b.den : Int) < b.num * (a.den : Int)

/-- Value equality of fractions. -/
def GoNum.eqv (a b : GoNum) : Bool :=
  a.num * (b.den : Int) == b.num * (a.den : Int)

/-- A whole number as a fraction. -/
def GoNum.ofInt (n : Int) : GoNum := ⟨n, 1⟩

/-- Result of a successful Go `strconv.ParseFloat`: a finite value
(kept exact; Go rounds to the nearest `float64`) or one of the special
values. -/
inductive GoFloat where
  | finite (q : GoNum)
  | posInf
  | negInf
  | nan
deriving DecidableEq

/-- Go `<` on parsed values: comparisons involving NaN are false. -/
def GoFloat.lt : GoFloat → GoFloat → Bool
  | .nan, _ => false
  | _, .nan => false
  | .negInf, .negInf => false
  | .negInf, _ => true
  | _, .negInf => false
  | .posInf, _ => false
  | .finite _, .posInf => true
  | .finite a, .finite b => a.ltv b

/-- Go `>` on parsed values: comparisons involving NaN are false. -/
def GoFloat.gt (a b : GoFloat) : Bool := GoFloat.lt b a

/-- The special-value recognizer of `strconv.ParseFloat`: an optionally
signed `inf`/`infinity`, or an unsigned `nan`, case-insensitively, and
nothing else in the string. -/
def goSpecial (chars : List Char) : Option GoFloat :=
  match chars with
  | [] => none
  | c :: rest =>
    let neg := c = '-'
    let signed := c = '+' ∨ c = '-'
    let body := if signed then rest else chars
    let low := body.map asciiLower
    if low = "inf".data ∨ low = "infinity".data then
      some (if neg then GoFloat.negInf else GoFloat.posInf)
    else if ¬signed ∧ low = "nan".data then some GoFloat.nan
    else none

/-- State of the mantissa scan of `strconv`'s `readFloat`. -/
structure MantScan where
  mant : Nat := 0
  frac : Nat := 0
  sawDot : Bool := false
  sawDigit : Bool := false
  sawUnd : Bool := false
deriving DecidableEq

/-- Mantissa scan of `readFloat`: consumes digits, underscores and at
most one dot, and stops at the first other character. -/
def scanMantissa (hex : Bool) : MantScan → List Char → MantScan × List Char
  | st, [] => (st, [])
  | st, c :: rest =>
    if c = '_' then scanMantissa hex { st with sawUnd := true } rest
    else if c = '.' then
      if st.sawDot then (st, c :: rest)
      else scanMantissa hex { st with sawDot := true } rest
    else if (if hex then isDigitChar c || isHexLetter c else isDigitChar c) then
      scanMantissa hex
        { st with
          mant := st.mant * (if hex then 16 else 10) +
            (if hex then hexValNat c else digitValNat c)
          frac := st.frac + (if st.sawDot then 1 else 0)
          sawDigit := true } rest
    else (st, c :: rest)

/-- Exponent digit scan of `readFloat`: consumes digits and
underscores.  Returns the exponent value, whether an underscore was
seen, and the rest. -/
def scanExpDigits : Nat → Bool → List Char → Nat × Bool × List Char
  | acc, und, [] => (acc, und, [])
  | acc, und, c :: rest =>
    if c = '_' then scanExpDigits acc true rest
    else if isDigitChar c then scanExpDigits (acc * 10 + digitValNat c) und rest
    else (acc, und, c :: rest)

/-- Port of `strconv`'s `underscoreOK`: underscores must sit between
digits (a base prefix counting as a digit).  `saw` tracks the class of
the previous character: `^` start, `0` digit, `_` underscore, `!`
other. -/
def underscoreOKCore (hex : Bool) : Char → List Char → Bool
  | saw, [] => saw ≠ '_'
  | saw, c :: rest =>
    if isDigitChar c || (hex && isHexLetter c) then underscoreOKCore hex '0' rest
    else if c = '_' then
      if saw = '0' then underscoreOKCore hex '_' rest else false
    else if saw = '_' then false
    else underscoreOKCore hex '!' rest

def underscoreOK (chars : List Char) : Bool :=
  let body := match chars with
    | '+' :: r => r
    | '-' :: r => r
    | r => r
  match body with
  | '0' :: b :: r =>
    if asciiLower b = 'b' ∨ asciiLower b = 'o' ∨ asciiLower b = 'x' then
      underscoreOKCore (asciiLower b = 'x') '0' r
    else underscoreOKCore false '^' body
  | _ => underscoreOKCore false '^' body

/-- The exact value described by a scanned number:
`mant / base^frac * expBase^(esign*e)` where `base`/`expBase` are
`10`/`10` for decimal and `16`/`2` for hexadecimal mantissas. -/
def mantToNum (neg hex : Bool) (st : MantScan) (esign : Int) (e : Nat) : GoNum :=
  let base : Nat := if hex then 16 else 10
  let expBase : Nat := if hex then 2 else 10
  let mag : GoNum :=
    if 0 ≤ esign then ⟨(st.mant * expBase ^ e : Nat), base ^ st.frac⟩
    else ⟨(st.mant : Nat), base ^ st.frac * expBase ^ e⟩
  if neg then ⟨-mag.num, mag.den⟩ else mag

/-- Syntax and value of a non-special `strconv.ParseFloat` input:
optional sign, optional hexadecimal prefix (hexadecimal mantissas
require a `p` exponent), mantissa with at most one dot, optional
(decimal) or mandatory (hexadecimal) exponent, full consumption of the
string, and well-placed underscores. -/
def goReadFloat (chars : List Char) : Option GoNum :=
  let signSplit : Bool × List Char :=
    match chars with
    | '+' :: r => (false, r)
    | '-' :: r => (true, r)
    | r => (false, r)
  let neg := signSplit.1
  let hexSplit : Bool × List Char :=
    match signSplit.2 with
    | '0' :: x :: r => if asciiLower x = 'x' then (true, r) else (false, signSplit.2)
    | r => (false, r)
  let hex := hexSplit.1
  let scanned := scanMantissa hex {} hexSplit.2
  let st := scanned.1
  if !st.sawDigit then none
  else
    let finish : Int → Nat → Bool → Option GoNum := fun esign e und =>
      if und && !underscoreOK chars then none
      else some (mantToNum neg hex st esign e)
    match scanned.2 with
    | [] => if hex then none else finish 1 0 st.sawUnd
    | c :: rest =>
      if asciiLower c = (if hex then 'p' else 'e') then
        let expSplit : Int × List Char :=
          match rest with
          | '+' :: r => (1, r)
          | '-' :: r => (-1, r)
          | r => (1, r)
        match expSplit.2 with
        | [] => none
        | d :: _ =>
          if !isDigitChar d then none
          else
            let eScan := scanExpDigits 0 false expSplit.2
            match eScan.2.2 with
            | [] => finish expSplit.1 eScan.1 (st.sawUnd || eScan.2.1)
            | _ :: _ => none
      else none

/-- Overflow threshold of `float64`: values whose magnitude reaches
`2^1024 - 2^970` round to infinity, which `ParseFloat` reports as
`ErrRange`.  (Underflow to zero is not an error.) -/
def float64OverflowBound : Nat := 2 ^ 1024 - 2 ^ 970

/-- Whether a parsed value overflows `float64`:
`|num/den| ≥ 2^1024 - 2^970`. -/
def GoNum.overflows (q : GoNum) : Bool :=
  float64OverflowBound * q.den ≤ q.num.natAbs

/-- Model of Go `strconv.ParseFloat(s, 64)` restricted to its success
behaviour: `none` models a non-nil error (syntax or overflow), `some`
carries the parsed value. -/
def goParseFloat (s : String) : Option GoFloat :=
  match goSpecial s.data with
  | some g => some g
  | none =>
    match goReadFloat s.data with
    | none => none
    | some q => if q.overflows then none else some (GoFloat.finite q)

example : goParseFloat "Inf" = some GoFloat.posInf := by decide
example : goParseFloat "-Infinity" = some GoFloat.negInf := by decide
example : goParseFloat "NaN" = some GoFloat.nan := by decide
example : goParseFloat "+NaN" = none := by decide
example : goParseFloat "12.5e1" = some (GoFloat.finite ⟨1250, 10⟩) := by decide
example : goParseFloat "1_0" = some (GoFloat.finite ⟨10, 1⟩) := by decide
example : goParseFloat "_1" = none := by decide
example : goParseFloat "0x1p4" = some (GoFloat.finite ⟨16, 1⟩) := by decide
example : goParseFloat "0x10" = none := by decide
example : goParseFloat "abc" = none := by decide
example : goParseFloat "1e" = none := by decide
example : goAtoi "-42" = some (-42) := by decide
example : goAtoi "4x" = none := by decide
example : goReplaceAll "aaa" "aa" "b" = "ba" := by decide
example : goContains "user@host.com" "@" = true := by decide
example : goEqualFold "Yes" "yES" = true := by decide

/-! ## Data model (`internal/automation/structs.go`, `internal/models/models.go`) -/

/-- A JSON value as decoded by Go into `interface{}` for the
loosely-typed validation fields (numbers decode to `float64`, here kept
exact). -/
inductive JsonVal where
  | num (v : GoNum)
  | str (s : String)
  | other
deriving DecidableEq

/-- `StepValidation` (structs.go): validation rules of an input step.
`maxRetries`, `min` and `max` are `interface{}` in Go; `none` models a
nil interface (absent JSON field). -/
structure StepValidation where
  maxRetries : Option JsonVal := none
  errorMessage : String := ""
  regex : String := ""
  min : Option JsonVal := none
  max : Option JsonVal := none
deriving DecidableEq

structure QuickReplyBtn where
  label : String
deriving DecidableEq

structure ListOption where
  title : String := ""
  description : String := ""
deriving DecidableEq

/-- `ReactFlowStep` (structs.go).  The media/location fields
(`mediaId`, `url`, `latitude`, `longitude`, `name`, `address`) are not
read by any embedded function and are omitted. -/
structure ReactFlowStep where
  type_ : String := ""
  content : String := ""
  variable_ : String := ""
  buttons : List QuickReplyBtn := []
  options : List ListOption := []
  buttonText : String := ""
  validation : Option StepValidation := none
  targetFlowId : String := ""
  targetNodeId : String := ""
deriving DecidableEq

structure ReactFlowNodeData where
  label : String := ""
  steps : List ReactFlowStep := []
  isStart : Bool := false
deriving DecidableEq

/-- `ReactFlowNode` (structs.go).  `Position` is `map[string]float64`
in Go, modelled as an association list of exact values. -/
structure ReactFlowNode where
  id : String := ""
  type_ : String := ""
  position : List (String × GoNum) := []
  data : ReactFlowNodeData := {}
deriving DecidableEq

structure ReactFlowEdge where
  id : String := ""
  source : String := ""
  target : String := ""
  sourceHandle : String := ""
deriving DecidableEq

structure FlowGraphData where
  nodes : List ReactFlowNode := []
  edges : List ReactFlowEdge := []
deriving DecidableEq

/-- A `conversation_sessions` row (models.go `ConversationSession`;
schema in database/db.go).  `context` is a JSON-encoded
`map[string]string` in Go, modelled as an association list. -/
structure Session where
  id : Nat
  waId : String
  flowId : String
  currentNode : String
  context : List (String × String)
  status : String
deriving DecidableEq

/-- A `contacts` row (models.go `Contact`).  `tags` is a JSON-encoded
`[]string` in Go (`"[]"` when empty), modelled as the decoded list;
`profile_pic_url` and timestamps are never read and are omitted. -/
structure Contact where
  waId : String
  name : String
  tags : List String
deriving DecidableEq

/-- A `messages` row (models.go `Message`); timestamps and the
auto-increment primary key are omitted. -/
structure MessageRow where
  waID : String
  sender : String
  content : String
  type_ : String
  status : String
deriving DecidableEq

/-- The database state visible to the embedded functions.  The `flows`
table stores `graph_data` as JSON text; the JSON encode/decode
round-trip is modelled as the identity, so a flow row carries the
structured graph.  `conversation_sessions` has an auto-increment
primary key and, per the schema in `internal/database/db.go`, no
uniqueness constraint besides it: inserting a session always
succeeds. -/
structure DB where
  flows : List (String × FlowGraphData)
  sessions : List Session
  contacts : List Contact
  messages : List MessageRow
  nextSessionId : Nat
deriving DecidableEq

/-- An outbound message handed to the WhatsApp client.  Buttons are
`(id, title)` pairs; list rows are `(id, title, description)`. -/
inductive OutMsg where
  | text (to_ body : String)
  | buttons (to_ body : String) (btns : List (String × String))
  | list (to_ body buttonText : String) (rows : List (String × String × String))
deriving DecidableEq

/-- Result of an engine entry point: the database afterwards, the
outbound messages emitted (in order), and the returned Go error
(`none` = nil). -/
structure EngineOut where
  db : DB
  msgs : List OutMsg
  err : Option String
deriving DecidableEq

/-- The `regexp` package, an external capability: `matchString pattern
input` is `none` when the pattern fails to compile and `some m`
otherwise. -/
structure RegexEngine where
  matchString : String → String → Option Bool

/-! ## Session store and helpers (flow_executor.go) -/

def lookupFlow (db : DB) (flowID : String) : Option FlowGraphData :=
  (db.flows.find? (fun p => p.1 == flowID)).map (fun p => p.2)

/-- `SELECT ... FROM conversation_sessions WHERE wa_id = ? AND
status='active'`: the first matching row in rowid order. -/
def findActiveSession (db : DB) (waID : String) : Option Session :=
  db.sessions.find? (fun s => s.waId == waID && s.status == "active")

/-- `SELECT id ...` with the scan error ignored: `0` when no row
matches (ids start at 1). -/
def activeSessionId (db : DB) (waID : String) : Nat :=
  ((findActiveSession db waID).map (fun s => s.id)).getD 0

/-- `TerminateSession` (flow_executor.go:935): completes every active
session of `waID`. -/
def terminateSession (db : DB) (waID : String) : DB :=
  { db with sessions := db.sessions.map (fun s =>
      if s.waId == waID && s.status == "active" then { s with status := "completed" } else s) }

/-- `TerminateSessionByID` (flow_executor.go:939): sets
`status='completed'` on the row with the given id. -/
def terminateSessionByID (db : DB) (id : Nat) : DB :=
  { db with sessions := db.sessions.map (fun s =>
      if s.id == id then { s with status := "completed" } else s) }

def updateSessionCurrentNode (db : DB) (id : Nat) (nodeID : String) : DB :=
  { db with sessions := db.sessions.map (fun s =>
      if s.id == id then { s with currentNode := nodeID } else s) }

/-- The Chatbot jump's `UPDATE conversation_sessions SET flow_id = ?,
current_node = ? WHERE id = ?` (flow_executor.go:833). -/
def updateSessionFlowNode (db : DB) (id : Nat) (flowID nodeID : String) : DB :=
  { db with sessions := db.sessions.map (fun s =>
      if s.id == id then { s with flowId := flowID, currentNode := nodeID } else s) }

/-- Map update on the decoded context (Go sets the key in the decoded
`map[string]string` and re-marshals; the model updates in place or
appends). -/
def ctxSet (ctx : List (String × String)) (k v : String) : List (String × String) :=
  if ctx.any (fun p => p.1 == k) then
    ctx.map (fun p => if p.1 == k then (k, v) else p)
  else ctx ++ [(k, v)]

/-- `UpdateSessionContext` (flow_executor.go:943): read-modify-write of
the context of the session with the given id; a missing id is a
no-op (the `UPDATE` matches no row). -/
def updateSessionContext (db : DB) (id : Nat) (k v : String) : DB :=
  { db with sessions := db.sessions.map (fun s =>
      if s.id == id then { s with context := ctxSet s.context k v } else s) }

def getSessionContext (db : DB) (id : Nat) : List (String × String) :=
  ((db.sessions.find? (fun s => s.id == id)).map (fun s => s.context)).getD []

/-- `GetContextInt` (flow_executor.go:960): the context value at `key`
parsed with `strconv.Atoi`, defaulting to `0` for a missing session,
missing key or unparsable value. -/
def getContextInt (db : DB) (id : Nat) (key : String) : Int :=
  match (getSessionContext db id).lookup key with
  | none => 0
  | some v => (goAtoi v).getD 0

/-- The `INSERT INTO conversation_sessions` of `StartFlow`
(flow_executor.go:475): a fresh row with empty context and status
`active`.  Under the schema this insert always succeeds. -/
def insertSession (db : DB) (waID flowID nodeID : String) : DB :=
  { db with
    sessions := db.sessions ++ [⟨db.nextSessionId, waID, flowID, nodeID, [], "active"⟩]
    nextSessionId := db.nextSessionId + 1 }

/-- `ReplaceVariables` (flow_executor.go:985): one `ReplaceAll` pass
for `{\x7b}contact.name{\x7d}`-style tokens is applied per key, in
sequence — contact name, contact phone, then each key of the active
session's context (Go map iteration order is randomized; the model
iterates in list order). -/
def replaceVariables (db : DB) (waID text : String) : String :=
  let name := ((db.contacts.find? (fun c => c.waId == waID)).map (fun c => c.name)).getD ""
  let text := goReplaceAll text "\x7b\x7bcontact.name\x7d\x7d" name
  let text := goReplaceAll text "\x7b\x7bcontact.phone\x7d\x7d" waID
  match findActiveSession db waID with
  | none => text
  | some s =>
    s.context.foldl (fun t kv => goReplaceAll t ("\x7b\x7bvars." ++ kv.1 ++ "\x7d\x7d") kv.2) text

/-- `ToInt` (flow_executor.go:1008): a `float64` is truncated toward
zero (with 64-bit wrap, as in Go's conversion); a string goes through
`strconv.Atoi`. -/
def goToInt : Option JsonVal → Option Int
  | some (.num v) => some (intWrap64 (v.num.tdiv (v.den : Int)))
  | some (.str s) => goAtoi s
  | _ => none

/-- `ToFloat` (flow_executor.go:1020): a `float64` is kept; a string
goes through `strconv.ParseFloat`. -/
def goToFloat : Option JsonVal → Option GoFloat
  | some (.num v) => some (.finite v)
  | some (.str s) => goParseFloat s
  | _ => none

/-! ## Input validation (flow_executor.go:636-676 and 541-578) -/

/-- `ValidateInput` (flow_executor.go:636), reached only with a non-nil
validation record: regex check (a compile error counts as a match),
min/max bounds for `Number Input`, and a basic email check for
`Email Input` when no regex is configured. -/
def validateInput (re : RegexEngine) (input stepType : String) (v : StepValidation) : Bool :=
  if v.regex ≠ "" && re.matchString v.regex input == some false then false
  else
    let numberOK : Bool :=
      if stepType == "Number Input" then
        match goParseFloat input with
        | none => false
        | some val =>
          let minBad :=
            match v.min with
            | none => false
            | some _ =>
              match goToFloat v.min with
              | some minVal => GoFloat.lt val minVal
              | none => false
          let maxBad :=
            match v.max with
            | none => false
            | some _ =>
              match goToFloat v.max with
              | some maxVal => GoFloat.gt val maxVal
              | none => false
          !minBad && !maxBad
      else true
    if !numberOK then false
    else if stepType == "Email Input" && v.regex == "" then
      goContains input "@" && goContains input "."
    else true

/-- The effective validation outcome of a `ContinueFlow` call: the
validity flag, the error message to send on failure, and the retry
cap. -/
structure ValidationOutcome where
  isValid : Bool
  errorMessage : String
  maxRetries : Int
deriving DecidableEq

/-- The validation block of `ContinueFlow` (flow_executor.go:541-578):
type-intrinsic email/number checks run unconditionally; a configured
validation record can override the retry cap and message and add
`ValidateInput` (which can only turn a valid input invalid). -/
def computeValidation (re : RegexEngine) (input stepType : String)
    (validation : Option StepValidation) : ValidationOutcome :=
  let iv0 := true
  let em0 := "Invalid input. Please try again."
  let p1 : Bool × String :=
    if stepType == "Email Input" && !(goContains input "@" && goContains input ".") then
      (false, "Please enter a valid email address.")
    else (iv0, em0)
  let p2 : Bool × String :=
    if stepType == "Number Input" && (goParseFloat input).isNone then
      (false, "Please enter a valid number.")
    else p1
  match validation with
  | none => ⟨p2.1, p2.2, 3⟩
  | some v =>
    let mr : Int := (goToInt v.maxRetries).getD 3
    let em := if v.errorMessage ≠ "" then v.errorMessage else p2.2
    let iv := if validateInput re input stepType v then p2.1 else false
    ⟨iv, em, mr⟩

/-! ## Edge resolution (`FindNextNodeID`, flow_executor.go:678-762) -/

/-- The scan at flow_executor.go:681-693: it stops at the first step
whose type is `Quick Reply` or `List`, so at most one of the two flags
is set. -/
def interactiveScan : List ReactFlowStep → Bool × Bool
  | [] => (false, false)
  | st :: rest =>
    if st.type_ == "Quick Reply" then (true, false)
    else if st.type_ == "List" then (false, true)
    else interactiveScan rest

/-- First edge out of `src` with the given handle, if any. -/
def edgeForHandle (edges : List ReactFlowEdge) (src handle : String) : Option String :=
  (edges.find? (fun e => e.source == src && e.sourceHandle == handle)).map (fun e => e.target)

/-- Button loop of the Quick Reply phase: a case-insensitive label
match looks up the edge at `handle-<stepIdx>-<buttonIdx>`; a match
without an edge continues the scan. -/
def qrButtonLoop (nodeId : String) (edges : List ReactFlowEdge) (input : String)
    (sIdx : Nat) : List (Nat × QuickReplyBtn) → Option String
  | [] => none
  | (bIdx, btn) :: rest =>
    if goEqualFold btn.label input then
      match edgeForHandle edges nodeId ("handle-" ++ toString sIdx ++ "-" ++ toString bIdx) with
      | some t => some t
      | none => qrButtonLoop nodeId edges input sIdx rest
    else qrButtonLoop nodeId edges input sIdx rest

/-- Quick Reply phase (flow_executor.go:695-719). -/
def qrPhase (nodeId : String) (edges : List ReactFlowEdge) (input : String) :
    List (Nat × ReactFlowStep) → Option String
  | [] => none
  | (sIdx, st) :: rest =>
    if st.type_ == "Quick Reply" then
      match qrButtonLoop nodeId edges input sIdx st.buttons.enum with
      | some t => some t
      | none => qrPhase nodeId edges input rest
    else qrPhase nodeId edges input rest

/-- Option loop of the List phase: a case-insensitive title match
looks up the edge at `handle-<stepIdx>-<optionIdx>`. -/
def listOptionLoop (nodeId : String) (edges : List ReactFlowEdge) (input : String)
    (sIdx : Nat) : List (Nat × ListOption) → Option String
  | [] => none
  | (oIdx, opt) :: rest =>
    if goEqualFold opt.title input then
      match edgeForHandle edges nodeId ("handle-" ++ toString sIdx ++ "-" ++ toString oIdx) with
      | some t => some t
      | none => listOptionLoop nodeId edges input sIdx rest
    else listOptionLoop nodeId edges input sIdx rest

/-- List phase (flow_executor.go:721-745). -/
def listPhase (nodeId : String) (edges : List ReactFlowEdge) (input : String) :
    List (Nat × ReactFlowStep) → Option String
  | [] => none
  | (sIdx, st) :: rest =>
    if st.type_ == "List" then
      match listOptionLoop nodeId edges input sIdx st.options.enum with
      | some t => some t
      | none => listPhase nodeId edges input rest
    else listPhase nodeId edges input rest

/-- Default navigation (flow_executor.go:747-758): the first edge out
of the node that is generic — any edge when the node has no
interactive step, else an edge with an empty handle or a handle ending
in `default`. -/
def defaultNav (nodeId : String) (edges : List ReactFlowEdge) (hasQR hasList : Bool) : String :=
  match edges.find? (fun e =>
      e.source == nodeId &&
      ((!hasQR && !hasList) || e.sourceHandle == "" || goHasSuffix e.sourceHandle "default")) with
  | some e => e.target
  | none => ""

/-- `FindNextNodeID` (flow_executor.go:678). -/
def findNextNodeID (node : ReactFlowNode) (edges : List ReactFlowEdge) (input : String) : String :=
  let scan := interactiveScan node.data.steps
  let hasQR := scan.1
  let hasList := scan.2
  let qrRes := if hasQR then qrPhase node.id edges input node.data.steps.enum else none
  match qrRes with
  | some t => t
  | none =>
    let listRes := if hasList then listPhase node.id edges input node.data.steps.enum else none
    match listRes with
    | some t => t
    | none => defaultNav node.id edges hasQR hasList

/-! ## Node executor (`ExecuteNode`, flow_executor.go:764-933) -/

/-- Outcome of one pass over a node's step list: the loop fell
through, returned early with an error (failed Chatbot jump), or tail-
called `ExecuteNode` on a jump target (a successful Chatbot step
returns the recursive call directly, skipping the remaining steps and
the wait-or-advance decision). -/
inductive StepOut where
  | fell (db : DB) (msgs : List OutMsg)
  | early (db : DB) (msgs : List OutMsg) (err : Option String)
  | jump (db : DB) (msgs : List OutMsg) (node : ReactFlowNode) (graph : FlowGraphData)
deriving DecidableEq

/-- Prepend already-emitted messages to a loop outcome. -/
def StepOut.consMsgs (ms : List OutMsg) : StepOut → StepOut
  | .fell db msgs => .fell db (ms ++ msgs)
  | .early db msgs e => .early db (ms ++ msgs) e
  | .jump db msgs n g => .jump db (ms ++ msgs) n g

/-- The step dispatch loop of `ExecuteNode` (flow_executor.go:766-897).
Unknown step types and input steps emit nothing; a Chatbot step with a
nonempty target flow performs the jump inline. -/
def stepLoop (db : DB) (waID : String) : List ReactFlowStep → StepOut
  | [] => .fell db []
  | step :: rest =>
    if step.type_ == "Text" || step.type_ == "Text Message" then
      (stepLoop db waID rest).consMsgs [.text waID (replaceVariables db waID step.content)]
    else if step.type_ == "Quick Reply" then
      let text := replaceVariables db waID step.content
      let btns := (step.buttons.enum.take 3).map (fun p => ("btn_" ++ toString p.1, p.2.label))
      (stepLoop db waID rest).consMsgs [.buttons waID text btns]
    else if step.type_ == "List" then
      let text := replaceVariables db waID step.content
      let buttonText := if step.buttonText == "" then "Select an option" else step.buttonText
      let rows := (step.options.enum.take 10).map
        (fun p => ("opt_" ++ toString p.1, p.2.title, p.2.description))
      if rows.length > 0 then
        (stepLoop db waID rest).consMsgs [.list waID text buttonText rows]
      else stepLoop db waID rest
    else if step.type_ == "Chatbot" then
      if step.targetFlowId ≠ "" then
        match findActiveSession db waID with
        | none => .early db [] (some "error getting session")
        | some s =>
          let db := updateSessionFlowNode db s.id step.targetFlowId step.targetNodeId
          match lookupFlow db step.targetFlowId with
          | none => .early db [.text waID "Error: Target flow not found."] (some "target flow not found")
          | some targetGraph =>
            if step.targetNodeId ≠ "" then
              match targetGraph.nodes.find? (fun n => n.id == step.targetNodeId) with
              | some tn => .jump db [] tn targetGraph
              | none =>
                .early db [.text waID "Error: Target node not found."] (some "target node not found")
            else
              match targetGraph.nodes.find? (fun n => n.data.isStart) with
              | some tn => .jump db [] tn targetGraph
              | none =>
                .early db [.text waID "Error: Start node not found in target flow."]
                  (some "start node not found")
      else stepLoop db waID rest
    else if step.type_ == "Image" then
      (stepLoop db waID rest).consMsgs [.text waID ("[Image] " ++ step.content)]
    else stepLoop db waID rest

/-- The wait decision of `ExecuteNode` (flow_executor.go:899-908):
stop and wait iff the node has steps and the last step's type contains
`Input` or equals `Quick Reply` or `List`. -/
def waitsAfterSteps (steps : List ReactFlowStep) : Bool :=
  match steps.getLast? with
  | none => false
  | some lastStep =>
    goContains lastStep.type_ "Input" || lastStep.type_ == "Quick Reply" ||
      lastStep.type_ == "List"

/-- The Go zero value of `ReactFlowNode`, the value `ExecuteNode`
recurses on when the next node id has no matching node. -/
def zeroNode : ReactFlowNode := {}

/-- `ExecuteNode` (flow_executor.go:764): run the steps, then wait,
auto-advance, or complete the active session.  The fuel argument
bounds the recursion depth (Go recurses unboundedly on authored
cycles); `none` means the bound was hit. -/
def executeNode (fuel : Nat) (db : DB) (waID : String) (node : ReactFlowNode)
    (graph : FlowGraphData) : Option EngineOut :=
  match fuel with
  | 0 => none
  | f + 1 =>
    match stepLoop db waID node.data.steps with
    | .early db2 msgs e => some ⟨db2, msgs, e⟩
    | .jump db2 msgs tn tg =>
      match executeNode f db2 waID tn tg with
      | none => none
      | some out => some ⟨out.db, msgs ++ out.msgs, out.err⟩
    | .fell db2 msgs =>
      if waitsAfterSteps node.data.steps then some ⟨db2, msgs, none⟩
      else
        let nextNodeID := findNextNodeID node graph.edges ""
        if nextNodeID ≠ "" then
          let sid := activeSessionId db2 waID
          let db3 := updateSessionCurrentNode db2 sid nextNodeID
          let nextNode := (graph.nodes.find? (fun n => n.id == nextNodeID)).getD zeroNode
          match executeNode f db3 waID nextNode graph with
          | none => none
          | some out => some ⟨out.db, msgs ++ out.msgs, out.err⟩
        else
          let sid := activeSessionId db2 waID
          some ⟨terminateSessionByID db2 sid, msgs, none⟩

/-! ## Flow coordinator (`StartFlow`/`ContinueFlow`, flow_executor.go:445-634) -/

/-- `StartFlow` (flow_executor.go:445).  Under the schema in
`internal/database/db.go`, `conversation_sessions` has no uniqueness
constraint, so the session `INSERT` always succeeds and the
terminate-and-retry branch at flow_executor.go:480-491 is dead code;
the model inserts directly. -/
def startFlow (fuel : Nat) (db : DB) (waID flowID : String) : Option EngineOut :=
  match lookupFlow db flowID with
  | none => some ⟨db, [], some ("flow " ++ flowID ++ " not found")⟩
  | some graph =>
    match graph.nodes.find? (fun n => n.data.isStart) with
    | none => some ⟨db, [], some ("no start node found in flow " ++ flowID)⟩
    | some startNode =>
      let db := insertSession db waID flowID startNode.id
      executeNode fuel db waID startNode graph

/-- `ContinueFlow` (flow_executor.go:498-634). -/
def continueFlow (re : RegexEngine) (fuel : Nat) (db : DB) (waID : String) (sessionID : Nat)
    (flowID currentNodeID input : String) : Option EngineOut :=
  match lookupFlow db flowID with
  | none => some ⟨db, [], some ("flow " ++ flowID ++ " not found")⟩
  | some graph =>
    match graph.nodes.find? (fun n => n.id == currentNodeID) with
    | none =>
      some ⟨terminateSessionByID db sessionID, [], some ("node " ++ currentNodeID ++ " not found")⟩
    | some currentNode =>
      let lastStep? := currentNode.data.steps.getLast?
      let validation := lastStep?.bind (fun st => st.validation)
      let variableName := (lastStep?.map (fun st => st.variable_)).getD ""
      let stepType := (lastStep?.map (fun st => st.type_)).getD ""
      let vo := computeValidation re input stepType validation
      if vo.isValid then
        let db := updateSessionContext db sessionID (currentNodeID ++ "_retries") "0"
        let db := if variableName ≠ "" then updateSessionContext db sessionID variableName input
                  else db
        let nextNodeID := findNextNodeID currentNode graph.edges input
        if nextNodeID ≠ "" then
          let db := updateSessionCurrentNode db sessionID nextNodeID
          let nextNode := (graph.nodes.find? (fun n => n.id == nextNodeID)).getD zeroNode
          executeNode fuel db waID nextNode graph
        else
          some ⟨terminateSessionByID db sessionID, [], none⟩
      else
        let retryKey := currentNodeID ++ "_retries"
        let currentRetries := getContextInt db sessionID retryKey
        if currentRetries < vo.maxRetries then
          some ⟨updateSessionContext db sessionID retryKey (toString (intWrap64 (currentRetries + 1))),
            [.text waID vo.errorMessage], none⟩
        else
          some ⟨terminateSessionByID db sessionID,
            [.text waID "Too many invalid attempts. Session ended."], none⟩

/-! ## Webhook handler (`internal/webhook/handler.go`) -/

/-- `VerifyWebhook` (handler.go:28-43).  `gin`'s `c.Query` yields `""`
for a missing query parameter, so presence is modelled as
non-emptiness.  The result is the HTTP status and response body
(`c.Status` sends an empty body). -/
def verifyWebhook (verifyToken mode token challenge : String) : Nat × String :=
  if mode ≠ "" && token ≠ "" then
    if mode == "subscribe" && token == verifyToken then (200, challenge)
    else (403, "")
  else (400, "")

/-- `pkg/models/webhook.go` — the inbound message envelope.  `Text` is
a plain struct in Go (zero value when absent); the media and
interactive members are pointers. -/
structure MediaMessage where
  id : String := ""
  mimeType : String := ""
  sha256 : String := ""
  caption : String := ""
  filename : String := ""
deriving DecidableEq

structure ButtonReply where
  id : String := ""
  title : String := ""
deriving DecidableEq

structure ListReply where
  id : String := ""
  title : String := ""
  description : String := ""
deriving DecidableEq

structure NfmReply where
  responsePayload : String := ""
  body : String := ""
  name : String := ""
deriving DecidableEq

structure InteractiveMessage where
  type_ : String := ""
  buttonReply : Option ButtonReply := none
  listReply : Option ListReply := none
  nfmReply : Option NfmReply := none
deriving DecidableEq

structure InboundMessage where
  from_ : String := ""
  id : String := ""
  timestamp : String := ""
  textBody : String := ""
  image : Option MediaMessage := none
  video : Option MediaMessage := none
  audio : Option MediaMessage := none
  document : Option MediaMessage := none
  interactive : Option InteractiveMessage := none
  type_ : String := ""
deriving DecidableEq

/-- One `change` of a webhook entry; the envelope fields not read by
the handler (metadata, statuses, field) are omitted. -/
structure WebhookChange where
  messages : List InboundMessage := []
deriving DecidableEq

structure WebhookEntry where
  changes : List WebhookChange := []
deriving DecidableEq

structure WebhookPayload where
  entry : List WebhookEntry := []
deriving DecidableEq

/-- The content/type switch of `HandleMessage` (handler.go:59-119). -/
def inboundContent (m : InboundMessage) : String :=
  if m.type_ == "text" then m.textBody
  else if m.type_ == "image" then
    match m.image with
    | some im => "[image]:" ++ im.id ++ (if im.caption ≠ "" then ":" ++ im.caption else "")
    | none => ""
  else if m.type_ == "video" then
    match m.video with
    | some v => "[video]:" ++ v.id ++ (if v.caption ≠ "" then ":" ++ v.caption else "")
    | none => ""
  else if m.type_ == "audio" then
    match m.audio with
    | some a => "[audio]:" ++ a.id
    | none => ""
  else if m.type_ == "document" then
    match m.document with
    | some d => "[document]:" ++ d.id ++ (if d.filename ≠ "" then ":" ++ d.filename else "")
    | none => ""
  else if m.type_ == "interactive" then
    match m.interactive with
    | none => ""
    | some iv =>
      if iv.type_ == "button_reply" && iv.buttonReply.isSome then
        ((iv.buttonReply.map (fun b => b.title)).getD "")
      else if iv.type_ == "list_reply" && iv.listReply.isSome then
        ((iv.listReply.map (fun l => l.title)).getD "")
      else if iv.type_ == "nfm_reply" && iv.nfmReply.isSome then
        "[flow_response]:" ++ ((iv.nfmReply.map (fun n => n.responsePayload)).getD "")
      else "[interactive]:" ++ iv.type_
  else "[" ++ m.type_ ++ "]"

/-- `HandleMessage` (handler.go:45-170) up to the point where the
parsed payload is handled: appends the message-log row and upserts the
contact for the first message of the first change of the first entry.
The asynchronous dispatch to the automation engine (`go ...`) and the
HTTP 200 response are outside the state model. -/
def handleMessage (db : DB) (p : WebhookPayload) : DB :=
  match p.entry with
  | [] => db
  | e :: _ =>
    match e.changes with
    | [] => db
    | ch :: _ =>
      match ch.messages with
      | [] => db
      | m :: _ =>
        let content := inboundContent m
        let db := { db with
          messages := db.messages ++ [MessageRow.mk m.id m.from_ content m.type_ "received"] }
        match db.contacts.find? (fun c => c.waId == m.from_) with
        | none => { db with contacts := db.contacts ++ [Contact.mk m.from_ m.from_ []] }
        | some c =>
          if c.name == "" || c.name == c.waId then
            { db with contacts := db.contacts.map (fun c2 =>
                if c2.waId == m.from_ then { c2 with name := m.from_ } else c2) }
          else db

/-! ## Relational graph store (`internal/api/contacts.go:1036-1126`) -/

/-- A `flow_nodes` row (models.go `FlowNode`); `data` is a JSON blob
in Go, modelled as the decoded structure; timestamps and the
auto-increment key are omitted. -/
structure FlowNodeRow where
  flowID : String
  nodeID : String
  type_ : String
  posX : GoNum
  posY : GoNum
  data : ReactFlowNodeData
deriving DecidableEq

/-- A `flow_edges` row (models.go `FlowEdge`). -/
structure FlowEdgeRow where
  flowID : String
  edgeID : String
  source : String
  target : String
  sourceHandle : String
deriving DecidableEq

/-- The relational side of the graph store. -/
structure GraphStore where
  nodeRows : List FlowNodeRow
  edgeRows : List FlowEdgeRow
deriving DecidableEq

/-- `syncFlowGraph` (contacts.go:1036): inside one transaction, delete
the flow's node and edge rows and re-insert them from the graph. -/
def syncFlowGraph (gs : GraphStore) (flowID : String) (graph : FlowGraphData) : GraphStore :=
  { nodeRows :=
      gs.nodeRows.filter (fun r => !(r.flowID == flowID)) ++
        graph.nodes.map (fun n =>
          ⟨flowID, n.id, n.type_, ((n.position.lookup "x").getD ⟨0, 1⟩),
            ((n.position.lookup "y").getD ⟨0, 1⟩), n.data⟩)
    edgeRows :=
      gs.edgeRows.filter (fun r => !(r.flowID == flowID)) ++
        graph.edges.map (fun e => ⟨flowID, e.id, e.source, e.target, e.sourceHandle⟩) }

/-- `getFlowGraph` (contacts.go:1085): materialize the flow's rows
back into a graph. -/
def getFlowGraph (gs : GraphStore) (flowID : String) : FlowGraphData :=
  { nodes := (gs.nodeRows.filter (fun r => r.flowID == flowID)).map (fun r =>
      ⟨r.nodeID, r.type_, [("x", r.posX), ("y", r.posY)], r.data⟩)
    edges := (gs.edgeRows.filter (fun r => r.flowID == flowID)).map (fun r =>
      ⟨r.edgeID, r.source, r.target, r.sourceHandle⟩) }

/-! ## Rule action `add_tag` (`internal/automation/engine.go:215-240`) -/

/-- `addTagToContact` (engine.go:215): fetch-or-create the contact,
decode its JSON tag list, and append the tag only when absent. -/
def addTagToContact (db : DB) (waID tag : String) : DB :=
  let contact : Contact := (db.contacts.find? (fun c => c.waId == waID)).getD ⟨waID, "", []⟩
  if tag ∈ contact.tags then db
  else
    let saved := { contact with tags := contact.tags ++ [tag] }
    if db.contacts.any (fun c => c.waId == waID) then
      { db with contacts := db.contacts.map (fun c => if c.waId == waID then saved else c) }
    else
      { db with contacts := db.contacts ++ [saved] }

/-! ## Sanity checks of the embedding on concrete runs -/

example :
    findNextNodeID
      ⟨"A", "custom", [],
        ⟨"", [{ type_ := "Quick Reply", content := "Pick:",
                buttons := [⟨"Yes"⟩, ⟨"No"⟩] }], false⟩⟩
      [⟨"e1", "A", "B", "handle-0-0"⟩, ⟨"e2", "A", "C", "handle-0-1"⟩, ⟨"e3", "A", "D", "default"⟩]
      "yes" = "B" := by decide

example :
    findNextNodeID
      ⟨"A", "custom", [],
        ⟨"", [{ type_ := "Quick Reply", content := "Pick:",
                buttons := [⟨"Yes"⟩, ⟨"No"⟩] }], false⟩⟩
      [⟨"e1", "A", "B", "handle-0-0"⟩, ⟨"e2", "A", "C", "handle-0-1"⟩, ⟨"e3", "A", "D", "default"⟩]
      "maybe" = "D" := by decide

/-- Linear flow with auto-advance: `A` (start, Text "hi") → `B`
(Text "bye"); both texts are emitted in order and the session ends
completed. -/
example :
    startFlow 3
      ⟨[("f", ⟨[⟨"A", "custom", [], ⟨"", [{ type_ := "Text", content := "hi" }], true⟩⟩,
                ⟨"B", "custom", [], ⟨"", [{ type_ := "Text", content := "bye" }], false⟩⟩],
               [⟨"e1", "A", "B", ""⟩]⟩)], [], [], [], 1⟩
      "u" "f" =
    some ⟨⟨[("f", ⟨[⟨"A", "custom", [], ⟨"", [{ type_ := "Text", content := "hi" }], true⟩⟩,
                   ⟨"B", "custom", [], ⟨"", [{ type_ := "Text", content := "bye" }], false⟩⟩],
                  [⟨"e1", "A", "B", ""⟩]⟩)],
            [⟨1, "u", "f", "B", [], "completed"⟩], [], [], 2⟩,
          [.text "u" "hi", .text "u" "bye"], none⟩ := by decide

/-! ## Claim C6 — webhook challenge verification -/

/-- C6 counterexample: the claim says a missing `hub.challenge` yields
status 400, but `VerifyWebhook` never checks `hub.challenge`; with a
valid mode and token and an absent challenge the handler answers 200
with an empty body, not 400. -/
theorem verifyWebhook_missing_challenge_cex :
    verifyWebhook "tok" "subscribe" "tok" "" = (200, "") ∧ (200 : Nat) ≠ 400 := by decide

/-- C6 amended: if `hub.mode` or `hub.verify_token` is missing the
response is 400; `hub.challenge` is not required.  When mode and token
are present, the response is 200 with `hub.challenge` (possibly empty)
as body exactly when mode is `subscribe` and the token matches the
configured verify token, and 403 otherwise. -/
theorem verifyWebhook_characterization (vt mode token challenge : String) :
    ((mode = "" ∨ token = "") → verifyWebhook vt mode token challenge = (400, "")) ∧
    (mode ≠ "" → token ≠ "" →
      (mode = "subscribe" ∧ token = vt → verifyWebhook vt mode token challenge = (200, challenge)) ∧
      (¬(mode = "subscribe" ∧ token = vt) → verifyWebhook vt mode token challenge = (403, ""))) := by
  constructor
  · intro h
    rcases h with h | h <;> simp [verifyWebhook, h]
  · intro hm ht
    constructor
    · rintro ⟨h1, h2⟩
      subst h1; subst h2
      simp [verifyWebhook, ht]
    · intro h
      by_cases h1 : mode = "subscribe"
      · by_cases h2 : token = vt
        · exact absurd ⟨h1, h2⟩ h
        · simp [verifyWebhook, hm, ht, h1, h2]
      · simp [verifyWebhook, hm, ht, h1]

/-- Witness for `verifyWebhook_characterization` at a concrete
accepting input. -/
theorem verifyWebhook_characterization_witness :
    ("subscribe" : String) ≠ "" ∧ ("t" : String) ≠ "" ∧
      verifyWebhook "t" "subscribe" "t" "ch" = (200, "ch") :=
  ⟨by decide, by decide,
    ((verifyWebhook_characterization "t" "subscribe" "t" "ch").2 (by decide) (by decide)).1
      ⟨rfl, rfl⟩⟩

/-! ## Claim C1 — at most one active session per waID -/

/-- C1: evaluation of the code at the failing input.  `StartFlow` is
called twice for the same `waID` on a flow whose start node waits for
input; the schema (`internal/database/db.go`) puts no uniqueness
constraint on `conversation_sessions`, so the second `INSERT` succeeds
without completing the first session, and two sessions for `"u"` are
left with status `active` — violating the invariant the claim states. -/
theorem startFlow_duplicate_active_sessions :
    (Option.bind
      (startFlow 3
        ⟨[("F", ⟨[⟨"A", "custom", [], ⟨"", [{ type_ := "Text Input" }], true⟩⟩], []⟩)],
          [], [], [], 1⟩
        "u" "F")
      (fun o1 => (startFlow 3 o1.db "u" "F").map
        (fun o2 => (o2.db.sessions.filter
          (fun s => s.waId == "u" && s.status == "active")).length))) = some 2 ∧
    (2 : Nat) ≠ 1 := by decide

/-! ## Claim C8 — graph save/load round-trips edges exactly -/

/-- C8: saving a flow graph and loading it back returns exactly the
saved edge list — every edge's `id`, `source`, `target` and
`sourceHandle` (in particular the handle string, byte for byte) are
preserved. -/
theorem flowGraph_edges_round_trip (gs : GraphStore) (flowID : String) (graph : FlowGraphData) :
    (getFlowGraph (syncFlowGraph gs flowID graph) flowID).edges = graph.edges := by
  have hdrop : ∀ (rows : List FlowEdgeRow),
      (rows.filter (fun r => !(r.flowID == flowID))).filter (fun r => r.flowID == flowID) = [] := by
    intro rows
    induction rows with
    | nil => rfl
    | cons r rs ih =>
      by_cases h : r.flowID == flowID <;> simp_all [List.filter_cons]
  have hkeep : ∀ (es : List ReactFlowEdge),
      ((es.map (fun e => (⟨flowID, e.id, e.source, e.target, e.sourceHandle⟩ : FlowEdgeRow))).filter
          (fun r => r.flowID == flowID)) =
        es.map (fun e => (⟨flowID, e.id, e.source, e.target, e.sourceHandle⟩ : FlowEdgeRow)) := by
    intro es
    induction es with
    | nil => rfl
    | cons e es ih => simp_all [List.filter_cons]
  simp only [getFlowGraph, syncFlowGraph, List.filter_append, hdrop, hkeep, List.nil_append,
    List.map_map]
  have : ∀ (es : List ReactFlowEdge),
      es.map ((fun r : FlowEdgeRow => (⟨r.edgeID, r.source, r.target, r.sourceHandle⟩ : ReactFlowEdge)) ∘
        (fun e => (⟨flowID, e.id, e.source, e.target, e.sourceHandle⟩ : FlowEdgeRow))) = es := by
    intro es
    induction es with
    | nil => rfl
    | cons e es ih => simp_all
  exact this graph.edges

/-! ## Claim C9 — `add_tag` is idempotent on the decoded tag list -/

/-- The decoded tag list of a contact (empty when the contact does not
exist, matching the `"[]"` default used on creation). -/
def contactTags (db : DB) (waID : String) : List String :=
  ((db.contacts.find? (fun c => c.waId == waID)).map (fun c => c.tags)).getD []

theorem any_eq_find_isSome (l : List Contact) (p : Contact → Bool) :
    l.any p = (l.find? p).isSome := by
  induction l with
  | nil => rfl
  | cons c cs ih =>
    by_cases h : p c <;> simp [List.any_cons, List.find?_cons, h, ih]

theorem find?_map_update (l : List Contact) (waID : String) (saved : Contact)
    (hs : (saved.waId == waID) = true) (c0 : Contact)
    (h : l.find? (fun c => c.waId == waID) = some c0) :
    (l.map (fun c => if c.waId == waID then saved else c)).find?
      (fun c => c.waId == waID) = some saved := by
  induction l with
  | nil => simp at h
  | cons c cs ih =>
    by_cases hc : c.waId = waID
    · simp [List.find?_cons, hc, hs]
    · have hcb : (c.waId == waID) = false := by simp [hc]
      simp only [List.map_cons, if_neg hc]
      rw [List.find?_cons_of_neg _ (by simp [hc])]
      rw [List.find?_cons_of_neg _ (by simp [hc])] at h
      exact ih h

theorem find?_append_single (l : List Contact) (waID : String) (saved : Contact)
    (hs : (saved.waId == waID) = true)
    (h : l.find? (fun c => c.waId == waID) = none) :
    (l ++ [saved]).find? (fun c => c.waId == waID) = some saved := by
  induction l with
  | nil => simp [List.find?_cons, hs]
  | cons c cs ih =>
    by_cases hc : c.waId = waID
    · rw [List.find?_cons_of_pos _ (by simp [hc])] at h
      exact absurd h (by simp)
    · rw [List.find?_cons_of_neg _ (by simp [hc])] at h
      rw [List.cons_append, List.find?_cons_of_neg _ (by simp [hc])]
      exact ih h

/-- C9: the `add_tag` action on the decoded tag list — a present tag
leaves the list unchanged, an absent tag is appended exactly once, the
action is idempotent, and it never introduces a duplicate. -/
theorem addTag_idempotent_spec (db : DB) (waID tag : String) :
    (tag ∈ contactTags db waID → addTagToContact db waID tag = db) ∧
    (tag ∉ contactTags db waID →
      contactTags (addTagToContact db waID tag) waID = contactTags db waID ++ [tag]) ∧
    addTagToContact (addTagToContact db waID tag) waID tag = addTagToContact db waID tag ∧
    ((contactTags db waID).Nodup → (contactTags (addTagToContact db waID tag) waID).Nodup) := by
  have hmemGen : ∀ (d : DB), tag ∈ contactTags d waID → addTagToContact d waID tag = d := by
    intro d h
    cases hf : d.contacts.find? (fun c => c.waId == waID) with
    | none => simp [contactTags, hf] at h
    | some c0 =>
      have h' : tag ∈ c0.tags := by simpa [contactTags, hf] using h
      simp [addTagToContact, hf, h']
  have habs : tag ∉ contactTags db waID →
      contactTags (addTagToContact db waID tag) waID = contactTags db waID ++ [tag] := by
    intro h
    cases hf : db.contacts.find? (fun c => c.waId == waID) with
    | none =>
      have hany : db.contacts.any (fun c => c.waId == waID) = false := by
        rw [any_eq_find_isSome, hf]; rfl
      have hfind := find?_append_single db.contacts waID ⟨waID, "", [tag]⟩ (by simp) hf
      simp [addTagToContact, hf, hany, contactTags, hfind]
    | some c0 =>
      have h' : tag ∉ c0.tags := by simpa [contactTags, hf] using h
      have hany : db.contacts.any (fun c => c.waId == waID) = true := by
        rw [any_eq_find_isSome, hf]; rfl
      have hfind := find?_map_update db.contacts waID { c0 with tags := c0.tags ++ [tag] }
        (by simpa using List.find?_some hf) c0 hf
      have hstep : addTagToContact db waID tag =
          { db with contacts := db.contacts.map (fun c =>
              if c.waId == waID then { c0 with tags := c0.tags ++ [tag] } else c) } := by
        simp [addTagToContact, hf, h', hany]
      rw [hstep]
      simp only [contactTags]
      rw [hfind]
      simp [hf]
  refine ⟨hmemGen db, habs, ?_, ?_⟩
  · by_cases h : tag ∈ contactTags db waID
    · rw [hmemGen db h, hmemGen db h]
    · refine hmemGen (addTagToContact db waID tag) ?_
      rw [habs h]; simp
  · intro hnd
    by_cases h : tag ∈ contactTags db waID
    · rw [hmemGen db h]; exact hnd
    · rw [habs h]
      simp [List.nodup_append, hnd, h]

/-- Witness for `addTag_idempotent_spec`: adding `needs-help` to a
fresh contact stores it exactly once. -/
theorem addTag_idempotent_spec_witness :
    ("needs-help" ∉ contactTags ⟨[], [], [⟨"w", "w", []⟩], [], 1⟩ "w") ∧
      contactTags (addTagToContact ⟨[], [], [⟨"w", "w", []⟩], [], 1⟩ "w" "needs-help") "w" =
        contactTags ⟨[], [], [⟨"w", "w", []⟩], [], 1⟩ "w" ++ ["needs-help"] :=
  ⟨by decide,
    (addTag_idempotent_spec ⟨[], [], [⟨"w", "w", []⟩], [], 1⟩ "w" "needs-help").2.1 (by decide)⟩

/-! ## Claim C5 — variable substitution passes -/

theorem replaceAllAux_nil (old new : List Char) (fuel : Nat) :
    replaceAllAux old new fuel [] = [] := by
  cases fuel <;> rfl

/-- Replacing a nonempty string by `new` inside itself yields `new`. -/
theorem goReplaceAll_self (s new : String) (h : s.data ≠ []) :
    goReplaceAll s s new = new := by
  unfold goReplaceAll
  rw [if_neg (by simpa [List.isEmpty_iff] using h)]
  cases hd : s.data with
  | nil => exact absurd hd h
  | cons c rest =>
    have hpre : (c :: rest).isPrefixOf (c :: rest) = true := by
      simp [List.isPrefixOf_iff_prefix]
    simp [replaceAllAux, hpre, List.drop_length, replaceAllAux_nil]

theorem replaceAllAux_of_not_contains (old new : List Char) :
    ∀ (fuel : Nat) (s : List Char), listContainsSub old s = false →
      replaceAllAux old new fuel s = s := by
  intro fuel
  induction fuel with
  | zero => intro s _; rfl
  | succ f ih =>
    intro s h
    cases s with
    | nil => rfl
    | cons c rest =>
      have hp : old.isPrefixOf (c :: rest) = false := by
        by_cases hb : old.isPrefixOf (c :: rest) = true
        · exfalso
          rw [listContainsSub, if_pos hb] at h
          simp at h
        · exact Bool.eq_false_iff.mpr hb
      have hr : listContainsSub old rest = false := by
        rw [listContainsSub, if_neg (by simp [hp])] at h
        exact h
      simp [replaceAllAux, hp, ih rest hr]

/-- A pattern with no occurrence leaves the subject unchanged, whatever
the replacement. -/
theorem goReplaceAll_of_not_contains (s old new : String)
    (h : goContains s old = false) : goReplaceAll s old new = s := by
  have hne : old.data ≠ [] := by
    intro ho
    unfold goContains at h
    rw [ho] at h
    cases hs : s.data with
    | nil => rw [hs] at h; simp [listContainsSub, List.isEmpty] at h
    | cons c r => rw [hs] at h; simp [listContainsSub, List.isPrefixOf] at h
  unfold goReplaceAll
  rw [if_neg (by simpa [List.isEmpty_iff] using hne)]
  rw [replaceAllAux_of_not_contains old.data new.data (s.data.length + 1) s.data h]

/-- C5 counterexample: a value produced by a substitution IS re-scanned
by later passes.  With contact name `{\x7b}contact.phone{\x7d}` the
name pass plants a token that the phone pass then replaces; with
context `a ↦ {\x7b}vars.b{\x7d}, b ↦ X` the value planted by the `a`
pass is replaced by the `b` pass.  The claim predicted the outputs
`{\x7b}contact.phone{\x7d}` and `{\x7b}vars.b{\x7d}` respectively. -/
theorem replaceVariables_rescans_cex :
    replaceVariables ⟨[], [], [⟨"w", "\x7b\x7bcontact.phone\x7d\x7d", []⟩], [], 1⟩ "w"
        "\x7b\x7bcontact.name\x7d\x7d" = "w" ∧
      ("w" : String) ≠ "\x7b\x7bcontact.phone\x7d\x7d" ∧
      replaceVariables ⟨[], [⟨1, "w", "F", "N",
          [("a", "\x7b\x7bvars.b\x7d\x7d"), ("b", "X")], "active"⟩], [], [], 2⟩ "w"
        "\x7b\x7bvars.a\x7d\x7d" = "X" ∧
      ("X" : String) ≠ "\x7b\x7bvars.b\x7d\x7d" := by decide

/-- C5 amended: `ReplaceVariables` applies one `ReplaceAll` pass per
key sequentially — `{\x7b}contact.name{\x7d}`, then
`{\x7b}contact.phone{\x7d}`, then each context key in map-iteration
order — so a value produced by a pass is re-scanned by all later
passes (its embedded tokens of later keys are replaced), while tokens
of the same or earlier keys survive. -/
theorem replaceVariables_sequential_passes (waID v : String) :
    (replaceVariables ⟨[], [], [⟨waID, "\x7b\x7bcontact.phone\x7d\x7d", []⟩], [], 1⟩ waID
        "\x7b\x7bcontact.name\x7d\x7d" = waID) ∧
    (replaceVariables ⟨[], [⟨1, "w", "F", "N", [("b", v), ("a", "\x7b\x7bvars.b\x7d\x7d")],
        "active"⟩], [], [], 2⟩ "w" "\x7b\x7bvars.a\x7d\x7d" = "\x7b\x7bvars.b\x7d\x7d") ∧
    (replaceVariables ⟨[], [⟨1, "w", "F", "N", [("a", "\x7b\x7bvars.b\x7d\x7d"), ("b", v)],
        "active"⟩], [], [], 2⟩ "w" "\x7b\x7bvars.a\x7d\x7d" = v) := by
  have hname : goReplaceAll "\x7b\x7bcontact.name\x7d\x7d" "\x7b\x7bcontact.name\x7d\x7d"
      "\x7b\x7bcontact.phone\x7d\x7d" = "\x7b\x7bcontact.phone\x7d\x7d" :=
    goReplaceAll_self _ _ (by decide)
  have hphone : ∀ w : String,
      goReplaceAll "\x7b\x7bcontact.phone\x7d\x7d" "\x7b\x7bcontact.phone\x7d\x7d" w = w :=
    fun w => goReplaceAll_self _ _ (by decide)
  have hselfa : goReplaceAll "\x7b\x7bvars.a\x7d\x7d" ("\x7b\x7bvars." ++ "a" ++ "\x7d\x7d")
      "\x7b\x7bvars.b\x7d\x7d" = "\x7b\x7bvars.b\x7d\x7d" :=
    goReplaceAll_self _ _ (by decide)
  have hselfb : ∀ w : String,
      goReplaceAll "\x7b\x7bvars.b\x7d\x7d" ("\x7b\x7bvars." ++ "b" ++ "\x7d\x7d") w = w :=
    fun w => goReplaceAll_self _ _ (by decide)
  have hskipb : ∀ w : String,
      goReplaceAll "\x7b\x7bvars.a\x7d\x7d" ("\x7b\x7bvars." ++ "b" ++ "\x7d\x7d") w =
        "\x7b\x7bvars.a\x7d\x7d" :=
    fun w => goReplaceAll_of_not_contains _ _ _ (by decide)
  refine ⟨?_, ?_, ?_⟩
  · simp only [replaceVariables, findActiveSession, List.find?_cons, List.find?_nil]
    simp [hname, hphone]
  · show goReplaceAll (goReplaceAll (goReplaceAll (goReplaceAll "\x7b\x7bvars.a\x7d\x7d"
        "\x7b\x7bcontact.name\x7d\x7d" "") "\x7b\x7bcontact.phone\x7d\x7d" "w")
        ("\x7b\x7bvars." ++ "b" ++ "\x7d\x7d") v) ("\x7b\x7bvars." ++ "a" ++ "\x7d\x7d")
        "\x7b\x7bvars.b\x7d\x7d" = "\x7b\x7bvars.b\x7d\x7d"
    rw [show goReplaceAll (goReplaceAll "\x7b\x7bvars.a\x7d\x7d" "\x7b\x7bcontact.name\x7d\x7d" "")
        "\x7b\x7bcontact.phone\x7d\x7d" "w" = "\x7b\x7bvars.a\x7d\x7d" from by decide]
    rw [hskipb v, hselfa]
  · show goReplaceAll (goReplaceAll (goReplaceAll (goReplaceAll "\x7b\x7bvars.a\x7d\x7d"
        "\x7b\x7bcontact.name\x7d\x7d" "") "\x7b\x7bcontact.phone\x7d\x7d" "w")
        ("\x7b\x7bvars." ++ "a" ++ "\x7d\x7d") "\x7b\x7bvars.b\x7d\x7d")
        ("\x7b\x7bvars." ++ "b" ++ "\x7d\x7d") v = v
    rw [show goReplaceAll (goReplaceAll "\x7b\x7bvars.a\x7d\x7d" "\x7b\x7bcontact.name\x7d\x7d" "")
        "\x7b\x7bcontact.phone\x7d\x7d" "w" = "\x7b\x7bvars.a\x7d\x7d" from by decide]
    rw [hselfa, hselfb v]

/-! ## Claim C3 — which interactive step wins in `FindNextNodeID` -/

/-- C3 counterexample: a node whose step list is `[List, Quick Reply]`
and an input matching a Quick Reply button with an edge at
`handle-1-0`.  The claim predicts resolution against the Quick Reply
buttons (target `B`); the scan at flow_executor.go:684-693 stops at
the List step first, the input matches no list option, the handle edge
is not a default edge, and the result is `""`. -/
theorem findNext_list_first_cex :
    findNextNodeID
      ⟨"n1", "custom", [],
        ⟨"", [{ type_ := "List", options := [⟨"Opt", ""⟩] },
              { type_ := "Quick Reply", buttons := [⟨"Yes"⟩] }], false⟩⟩
      [⟨"e1", "n1", "B", "handle-1-0"⟩] "Yes" = "" ∧
    ("" : String) ≠ "B" := by decide

/-- A node with every step's buttons removed. -/
def stripButtons (node : ReactFlowNode) : ReactFlowNode :=
  { node with data := { node.data with
      steps := node.data.steps.map (fun st => { st with buttons := [] }) } }

/-- A node with every step's list options removed. -/
def stripOptions (node : ReactFlowNode) : ReactFlowNode :=
  { node with data := { node.data with
      steps := node.data.steps.map (fun st => { st with options := [] }) } }

theorem interactiveScan_cases (steps : List ReactFlowStep) :
    interactiveScan steps = (true, false) ∨ interactiveScan steps = (false, true) ∨
      interactiveScan steps = (false, false) := by
  induction steps with
  | nil => simp [interactiveScan]
  | cons st rest ih =>
    by_cases h1 : (st.type_ == "Quick Reply") = true
    · simp [interactiveScan, h1]
    · by_cases h2 : (st.type_ == "List") = true <;>
        simp [interactiveScan, h1, h2, ih]

theorem interactiveScan_map_type_preserving (f : ReactFlowStep → ReactFlowStep)
    (hf : ∀ st, (f st).type_ = st.type_) (steps : List ReactFlowStep) :
    interactiveScan (steps.map f) = interactiveScan steps := by
  induction steps with
  | nil => rfl
  | cons st rest ih => simp [interactiveScan, hf, ih]

theorem enumFrom_map_step (f : ReactFlowStep → ReactFlowStep) (l : List ReactFlowStep) :
    ∀ n : Nat, (l.map f).enumFrom n = (l.enumFrom n).map (fun p => (p.1, f p.2)) := by
  induction l with
  | nil => intro n; rfl
  | cons a l ih => intro n; simp [List.enumFrom, ih]

theorem qrPhase_map_buttons_preserving (nodeId : String) (edges : List ReactFlowEdge)
    (input : String) (f : ReactFlowStep → ReactFlowStep)
    (hft : ∀ st, (f st).type_ = st.type_) (hfb : ∀ st, (f st).buttons = st.buttons)
    (ps : List (Nat × ReactFlowStep)) :
    qrPhase nodeId edges input (ps.map (fun p => (p.1, f p.2))) =
      qrPhase nodeId edges input ps := by
  induction ps with
  | nil => rfl
  | cons p ps ih =>
    simp only [List.map_cons, qrPhase, hft, hfb, ih]

theorem listPhase_map_options_preserving (nodeId : String) (edges : List ReactFlowEdge)
    (input : String) (f : ReactFlowStep → ReactFlowStep)
    (hft : ∀ st, (f st).type_ = st.type_) (hfo : ∀ st, (f st).options = st.options)
    (ps : List (Nat × ReactFlowStep)) :
    listPhase nodeId edges input (ps.map (fun p => (p.1, f p.2))) =
      listPhase nodeId edges input ps := by
  induction ps with
  | nil => rfl
  | cons p ps ih =>
    simp only [List.map_cons, listPhase, hft, hfo, ih]

/-- C3 amended: the first interactive step in the step list decides
the matcher.  When a Quick Reply step precedes every List step the
list options are never consulted (the result is invariant under
removing them); when a List step comes first the Quick Reply buttons
are never consulted.  Quick Reply wins only by virtue of appearing
first, not unconditionally. -/
theorem findNext_first_interactive_decides (node : ReactFlowNode)
    (edges : List ReactFlowEdge) (input : String) :
    ((interactiveScan node.data.steps).1 = true →
      findNextNodeID node edges input = findNextNodeID (stripOptions node) edges input) ∧
    ((interactiveScan node.data.steps).2 = true →
      findNextNodeID node edges input = findNextNodeID (stripButtons node) edges input) := by
  constructor
  · intro h1
    have hsc : interactiveScan node.data.steps = (true, false) := by
      rcases interactiveScan_cases node.data.steps with h | h | h <;> simp_all
    have hsc' : interactiveScan (stripOptions node).data.steps = (true, false) := by
      show interactiveScan (node.data.steps.map (fun st => { st with options := [] })) = _
      rw [interactiveScan_map_type_preserving (fun st => { st with options := [] })
        (fun st => rfl), hsc]
    have hq : qrPhase node.id edges input (stripOptions node).data.steps.enum =
        qrPhase node.id edges input node.data.steps.enum := by
      show qrPhase node.id edges input
          ((node.data.steps.map (fun st => { st with options := [] })).enumFrom 0) = _
      rw [enumFrom_map_step]
      exact qrPhase_map_buttons_preserving node.id edges input
        (fun st => { st with options := [] }) (fun st => rfl) (fun st => rfl) _
    have hid : (stripOptions node).id = node.id := rfl
    simp only [findNextNodeID, hid, hsc, hsc', hq]
    rfl
  · intro h2
    have hsc : interactiveScan node.data.steps = (false, true) := by
      rcases interactiveScan_cases node.data.steps with h | h | h <;> simp_all
    have hsc' : interactiveScan (stripButtons node).data.steps = (false, true) := by
      show interactiveScan (node.data.steps.map (fun st => { st with buttons := [] })) = _
      rw [interactiveScan_map_type_preserving (fun st => { st with buttons := [] })
        (fun st => rfl), hsc]
    have hl : listPhase node.id edges input (stripButtons node).data.steps.enum =
        listPhase node.id edges input node.data.steps.enum := by
      show listPhase node.id edges input
          ((node.data.steps.map (fun st => { st with buttons := [] })).enumFrom 0) = _
      rw [enumFrom_map_step]
      exact listPhase_map_options_preserving node.id edges input
        (fun st => { st with buttons := [] }) (fun st => rfl) (fun st => rfl) _
    have hid : (stripButtons node).id = node.id := rfl
    simp only [findNextNodeID, hid, hsc, hsc', hl]
    rfl

/-- Witness for `findNext_first_interactive_decides`: on the
counterexample node (List first), removing all Quick Reply buttons
does not change the result. -/
theorem findNext_first_interactive_decides_witness :
    (interactiveScan [{ type_ := "List", options := [⟨"Opt", ""⟩] },
        { type_ := "Quick Reply", buttons := [⟨"Yes"⟩] }]).2 = true ∧
    findNextNodeID
        ⟨"n1", "custom", [],
          ⟨"", [{ type_ := "List", options := [⟨"Opt", ""⟩] },
                { type_ := "Quick Reply", buttons := [⟨"Yes"⟩] }], false⟩⟩
        [⟨"e1", "n1", "B", "handle-1-0"⟩] "Yes" =
      findNextNodeID
        (stripButtons
          ⟨"n1", "custom", [],
            ⟨"", [{ type_ := "List", options := [⟨"Opt", ""⟩] },
                  { type_ := "Quick Reply", buttons := [⟨"Yes"⟩] }], false⟩⟩)
        [⟨"e1", "n1", "B", "handle-1-0"⟩] "Yes" :=
  ⟨by decide,
    (findNext_first_interactive_decides
      ⟨"n1", "custom", [],
        ⟨"", [{ type_ := "List", options := [⟨"Opt", ""⟩] },
              { type_ := "Quick Reply", buttons := [⟨"Yes"⟩] }], false⟩⟩
      [⟨"e1", "n1", "B", "handle-1-0"⟩] "Yes").2 (by decide)⟩

/-! ## Claim C4 — type-intrinsic validation and `ParseFloat` -/

/-- C4 counterexample: on a `Number Input` step with no validation
record, the input `"Inf"` does not denote a finite decimal number, yet
`strconv.ParseFloat` parses it with a nil error, so `ContinueFlow`
judges it valid: no `"Please enter a valid number."` message is sent,
the retry counter is reset to `"0"`, and the session completes via the
normal no-next-node path. -/
theorem continueFlow_accepts_inf_cex :
    continueFlow ⟨fun _ _ => none⟩ 3
        ⟨[("F", ⟨[⟨"N", "custom", [], ⟨"", [{ type_ := "Number Input" }], true⟩⟩], []⟩)],
          [⟨1, "u", "F", "N", [], "active"⟩], [], [], 2⟩
        "u" 1 "F" "N" "Inf" =
      some ⟨⟨[("F", ⟨[⟨"N", "custom", [], ⟨"", [{ type_ := "Number Input" }], true⟩⟩], []⟩)],
          [⟨1, "u", "F", "N", [("N_retries", "0")], "completed"⟩], [], [], 2⟩,
        [], none⟩ ∧
    ([] : List OutMsg) ≠ [OutMsg.text "u" "Please enter a valid number."] ∧
    goParseFloat "Inf" = some GoFloat.posInf := by decide

/-! ## Claim C10 — when `ExecuteNode` waits for input -/

/-- C10 counterexample: a node whose last step is a `Text Input` but
whose first step is a Chatbot jump.  The claim predicts that
`ExecuteNode` waits, leaving the session active on the same node; the
jump at flow_executor.go:819-887 instead rewrites the session to the
target flow and node, executes the target, and here completes the
session. -/
theorem executeNode_chatbot_overrides_wait_cex :
    executeNode 5
        ⟨[("F1", ⟨[⟨"CB", "custom", [],
              ⟨"", [{ type_ := "Chatbot", targetFlowId := "F2", targetNodeId := "X" },
                    { type_ := "Text Input" }], true⟩⟩], []⟩),
          ("F2", ⟨[⟨"X", "custom", [], ⟨"", [{ type_ := "Text", content := "bye" }], false⟩⟩], []⟩)],
          [⟨1, "u", "F1", "CB", [], "active"⟩], [], [], 2⟩
        "u"
        ⟨"CB", "custom", [],
          ⟨"", [{ type_ := "Chatbot", targetFlowId := "F2", targetNodeId := "X" },
                { type_ := "Text Input" }], true⟩⟩
        ⟨[⟨"CB", "custom", [],
            ⟨"", [{ type_ := "Chatbot", targetFlowId := "F2", targetNodeId := "X" },
                  { type_ := "Text Input" }], true⟩⟩], []⟩ =
      some ⟨⟨[("F1", ⟨[⟨"CB", "custom", [],
              ⟨"", [{ type_ := "Chatbot", targetFlowId := "F2", targetNodeId := "X" },
                    { type_ := "Text Input" }], true⟩⟩], []⟩),
          ("F2", ⟨[⟨"X", "custom", [], ⟨"", [{ type_ := "Text", content := "bye" }], false⟩⟩], []⟩)],
          [⟨1, "u", "F2", "X", [], "completed"⟩], [], [], 2⟩,
        [OutMsg.text "u" "bye"], none⟩ ∧
    goContains "Text Input" "Input" = true ∧
    ("completed" : String) ≠ "active" ∧ ("X" : String) ≠ "CB" := by decide

/-! ## Claim C7 — the inbound message log entry -/

/-- C7 counterexample: for an inbound text message the appended log
row has `waID` equal to the provider message id (`message.ID`), not
the sender's waID — the sender is stored in the separate `sender`
column; and for an unknown kind (`sticker`) the content is `"[kind]"`
with no media id. -/
theorem handleMessage_waID_cex :
    (handleMessage ⟨[], [], [], [], 1⟩
        ⟨[⟨[⟨[{ from_ := "15551234567", id := "wamid.X",
                textBody := "hi", type_ := "text" }]⟩]⟩]⟩).messages =
      [⟨"wamid.X", "15551234567", "hi", "text", "received"⟩] ∧
    ("wamid.X" : String) ≠ "15551234567" ∧
    (handleMessage ⟨[], [], [], [], 1⟩
        ⟨[⟨[⟨[{ from_ := "w", id := "id2", type_ := "sticker" }]⟩]⟩]⟩).messages =
      [⟨"id2", "w", "[sticker]", "sticker", "received"⟩] := by decide

/-! ## Claim C2 — failed validation: retry or terminate -/

/-- Type of the last step of a node, `""` when the node has no steps
(ContinueFlow, flow_executor.go:534-539). -/
def lastStepType (node : ReactFlowNode) : String :=
  ((node.data.steps.getLast?).map (fun st => st.type_)).getD ""

/-- Validation record of the last step of a node
(ContinueFlow, flow_executor.go:534-539). -/
def lastStepValidation (node : ReactFlowNode) : Option StepValidation :=
  (node.data.steps.getLast?).bind (fun st => st.validation)

theorem updateSessionContext_preserves_node_status (db : DB) (id : Nat) (k v : String) :
    (updateSessionContext db id k v).sessions.map
        (fun s => (s.id, s.waId, s.flowId, s.currentNode, s.status)) =
      db.sessions.map (fun s => (s.id, s.waId, s.flowId, s.currentNode, s.status)) := by
  show (db.sessions.map (fun s =>
      if s.id == id then { s with context := ctxSet s.context k v } else s)).map
      (fun s => (s.id, s.waId, s.flowId, s.currentNode, s.status)) = _
  rw [List.map_map]
  apply List.map_congr_left
  intro s _
  by_cases h : s.id = id <;> simp [h]

theorem lookup_cons_of_ne (a : String) (p : String × String) (ps : List (String × String))
    (h : (a == p.1) = false) : List.lookup a (p :: ps) = List.lookup a ps := by
  obtain ⟨x, y⟩ := p
  simp only [List.lookup]
  simp only at h
  rw [h]

theorem lookup_map_update (k v : String) : ∀ ctx : List (String × String),
    ctx.any (fun p => p.1 == k) = true →
    ((ctx.map (fun p => if p.1 == k then (k, v) else p)).lookup k) = some v := by
  intro ctx
  induction ctx with
  | nil => intro h; simp at h
  | cons p ps ih =>
    intro h
    obtain ⟨a, b⟩ := p
    by_cases hp : a = k
    · subst hp
      simp only [List.map_cons]
      rw [if_pos (by simp : (((a, b).1 == a) = true))]
      simp [List.lookup]
    · have hak : (a == k) = false := beq_eq_false_iff_ne.mpr hp
      have hka : (k == a) = false := beq_eq_false_iff_ne.mpr (fun hh => hp hh.symm)
      have h' : ps.any (fun q => q.1 == k) = true := by
        simp only [List.any_cons] at h
        simpa [hak] using h
      simp only [List.map_cons]
      rw [if_neg (by simp [hak])]
      rw [lookup_cons_of_ne k (a, b) _ (by simpa using hka)]
      exact ih h'

theorem lookup_append_absent (k v : String) : ∀ ctx : List (String × String),
    ctx.any (fun p => p.1 == k) = false →
    ((ctx ++ [(k, v)]).lookup k) = some v := by
  intro ctx
  induction ctx with
  | nil => intro _; simp [List.lookup]
  | cons p ps ih =>
    intro h
    obtain ⟨a, b⟩ := p
    have hak : (a == k) = false := by
      simp only [List.any_cons] at h
      rcases Bool.or_eq_false_iff.mp h with ⟨h1, _⟩
      simpa using h1
    have h' : ps.any (fun q => q.1 == k) = false := by
      simp only [List.any_cons] at h
      exact (Bool.or_eq_false_iff.mp h).2
    have hka : (k == a) = false :=
      beq_eq_false_iff_ne.mpr (fun hh => (beq_eq_false_iff_ne.mp hak) hh.symm)
    rw [List.cons_append, lookup_cons_of_ne k (a, b) _ (by simpa using hka)]
    exact ih h'

/-- Setting a key in a decoded context makes it readable back. -/
theorem ctxSet_lookup_self (ctx : List (String × String)) (k v : String) :
    (ctxSet ctx k v).lookup k = some v := by
  unfold ctxSet
  by_cases h : ctx.any (fun p => p.1 == k) = true
  · rw [if_pos h]
    exact lookup_map_update k v ctx h
  · rw [if_neg h]
    exact lookup_append_absent k v ctx (Bool.eq_false_iff.mpr h)

theorem find?_map_update_session (l : List Session) (id : Nat)
    (g : Session → Session) (hg : ∀ s, (g s).id = s.id) (s0 : Session)
    (h : l.find? (fun t => t.id == id) = some s0) :
    (l.map (fun t => if t.id == id then g t else t)).find?
      (fun t => t.id == id) = some (g s0) := by
  induction l with
  | nil => simp at h
  | cons t ts ih =>
    by_cases ht : (t.id == id) = true
    · rw [List.find?_cons_of_pos (p := fun (u : Session) => u.id == id) _ ht] at h
      injection h with h2
      subst h2
      have hgt : ((g t).id == id) = true := by
        have := hg t
        simp only [beq_iff_eq] at ht ⊢
        rw [this]; exact ht
      simp only [List.map_cons, if_pos ht]
      rw [List.find?_cons_of_pos (p := fun (u : Session) => u.id == id) _ hgt]
    · rw [List.find?_cons_of_neg (p := fun (u : Session) => u.id == id) _ ht] at h
      simp only [List.map_cons, if_neg ht]
      rw [List.find?_cons_of_neg (p := fun (u : Session) => u.id == id) _ ht]
      exact ih h

theorem getSessionContext_update (db : DB) (id : Nat) (k v : String) (s : Session)
    (h : db.sessions.find? (fun t => t.id == id) = some s) :
    getSessionContext (updateSessionContext db id k v) id = ctxSet s.context k v := by
  have hfind := find?_map_update_session db.sessions id
    (fun t => { t with context := ctxSet t.context k v }) (fun t => rfl) s h
  show ((((db.sessions.map (fun t =>
      if t.id == id then { t with context := ctxSet t.context k v } else t))).find?
        (fun t => t.id == id)).map (fun t => t.context)).getD [] = _
  rw [hfind]
  rfl

/-- C2: when a `ContinueFlow` call fails validation, the retry counter
(read from the context with default 0) decides: below the effective
retry cap, the effective error message is sent and the stored counter
becomes its successor, every session's `currentNode` and `status`
being left unchanged (the update touches only the context); at or
above the cap, `"Too many invalid attempts. Session ended."` is sent
and the session's status becomes `completed`. -/
theorem continueFlow_invalid_input_retry (re : RegexEngine) (fuel : Nat) (db : DB)
    (waID : String) (sessionID : Nat) (flowID currentNodeID input : String)
    (graph : FlowGraphData) (node : ReactFlowNode)
    (hflow : lookupFlow db flowID = some graph)
    (hnode : graph.nodes.find? (fun n => n.id == currentNodeID) = some node)
    (hinvalid : (computeValidation re input (lastStepType node)
        (lastStepValidation node)).isValid = false) :
    (getContextInt db sessionID (currentNodeID ++ "_retries") <
        (computeValidation re input (lastStepType node) (lastStepValidation node)).maxRetries →
      continueFlow re fuel db waID sessionID flowID currentNodeID input =
        some ⟨updateSessionContext db sessionID (currentNodeID ++ "_retries")
            (toString (intWrap64
              (getContextInt db sessionID (currentNodeID ++ "_retries") + 1))),
          [OutMsg.text waID (computeValidation re input (lastStepType node)
            (lastStepValidation node)).errorMessage],
          none⟩) ∧
    (¬ getContextInt db sessionID (currentNodeID ++ "_retries") <
        (computeValidation re input (lastStepType node) (lastStepValidation node)).maxRetries →
      continueFlow re fuel db waID sessionID flowID currentNodeID input =
        some ⟨terminateSessionByID db sessionID,
          [OutMsg.text waID "Too many invalid attempts. Session ended."], none⟩) ∧
    (∀ k v, ((updateSessionContext db sessionID k v).sessions.map
        (fun s => (s.id, s.waId, s.flowId, s.currentNode, s.status))) =
      db.sessions.map (fun s => (s.id, s.waId, s.flowId, s.currentNode, s.status))) ∧
    (∀ s, db.sessions.find? (fun t => t.id == sessionID) = some s →
      (getSessionContext (updateSessionContext db sessionID (currentNodeID ++ "_retries")
          (toString (intWrap64
            (getContextInt db sessionID (currentNodeID ++ "_retries") + 1))))
        sessionID).lookup (currentNodeID ++ "_retries") =
      some (toString (intWrap64
        (getContextInt db sessionID (currentNodeID ++ "_retries") + 1)))) := by
  simp only [lastStepType, lastStepValidation] at hinvalid
  refine ⟨?_, ?_, ?_, ?_⟩
  · intro hlt
    simp only [lastStepType, lastStepValidation] at hlt
    simp only [continueFlow, hflow, hnode, hinvalid, lastStepType, lastStepValidation,
      Bool.false_eq_true, if_false]
    rw [if_pos hlt]
  · intro hge
    simp only [lastStepType, lastStepValidation] at hge
    simp only [continueFlow, hflow, hnode, hinvalid, lastStepType, lastStepValidation,
      Bool.false_eq_true, if_false]
    rw [if_neg hge]
  · intro k v
    exact updateSessionContext_preserves_node_status db sessionID k v
  · intro s hs
    rw [getSessionContext_update db sessionID _ _ s hs]
    exact ctxSet_lookup_self s.context _ _

/-- Witness for `continueFlow_invalid_input_retry`: an `Email Input`
node with no validation record, input `"bad"`, fresh retry counter. -/
theorem continueFlow_invalid_input_retry_witness :
    (computeValidation ⟨fun _ _ => none⟩ "bad"
        (lastStepType ⟨"N", "custom", [], ⟨"", [{ type_ := "Email Input" }], true⟩⟩)
        (lastStepValidation ⟨"N", "custom", [], ⟨"", [{ type_ := "Email Input" }], true⟩⟩)).isValid
      = false ∧
    continueFlow ⟨fun _ _ => none⟩ 3
        ⟨[("F", ⟨[⟨"N", "custom", [], ⟨"", [{ type_ := "Email Input" }], true⟩⟩], []⟩)],
          [⟨1, "u", "F", "N", [], "active"⟩], [], [], 2⟩
        "u" 1 "F" "N" "bad" =
      some ⟨updateSessionContext
          ⟨[("F", ⟨[⟨"N", "custom", [], ⟨"", [{ type_ := "Email Input" }], true⟩⟩], []⟩)],
            [⟨1, "u", "F", "N", [], "active"⟩], [], [], 2⟩
          1 "N_retries" (toString (intWrap64 (0 + 1))),
        [OutMsg.text "u" "Please enter a valid email address."], none⟩ :=
  ⟨by decide,
    (continueFlow_invalid_input_retry ⟨fun _ _ => none⟩ 3
      ⟨[("F", ⟨[⟨"N", "custom", [], ⟨"", [{ type_ := "Email Input" }], true⟩⟩], []⟩)],
        [⟨1, "u", "F", "N", [], "active"⟩], [], [], 2⟩
      "u" 1 "F" "N" "bad"
      ⟨[⟨"N", "custom", [], ⟨"", [{ type_ := "Email Input" }], true⟩⟩], []⟩
      ⟨"N", "custom", [], ⟨"", [{ type_ := "Email Input" }], true⟩⟩
      (by decide) (by decide) (by decide)).1 (by decide)⟩

/-- The two outcomes of a failed validation in `ContinueFlow`
(flow_executor.go:581-598), shared by the intrinsic-check theorems. -/
theorem continueFlow_invalid_branches (re : RegexEngine) (fuel : Nat) (db : DB)
    (waID : String) (sessionID : Nat) (flowID currentNodeID input : String)
    (graph : FlowGraphData) (node : ReactFlowNode)
    (hflow : lookupFlow db flowID = some graph)
    (hnode : graph.nodes.find? (fun n => n.id == currentNodeID) = some node)
    (hinvalid : (computeValidation re input (lastStepType node)
        (lastStepValidation node)).isValid = false) :
    (getContextInt db sessionID (currentNodeID ++ "_retries") <
        (computeValidation re input (lastStepType node) (lastStepValidation node)).maxRetries →
      continueFlow re fuel db waID sessionID flowID currentNodeID input =
        some ⟨updateSessionContext db sessionID (currentNodeID ++ "_retries")
            (toString (intWrap64
              (getContextInt db sessionID (currentNodeID ++ "_retries") + 1))),
          [OutMsg.text waID (computeValidation re input (lastStepType node)
            (lastStepValidation node)).errorMessage],
          none⟩) ∧
    (¬ getContextInt db sessionID (currentNodeID ++ "_retries") <
        (computeValidation re input (lastStepType node) (lastStepValidation node)).maxRetries →
      continueFlow re fuel db waID sessionID flowID currentNodeID input =
        some ⟨terminateSessionByID db sessionID,
          [OutMsg.text waID "Too many invalid attempts. Session ended."], none⟩) := by
  simp only [lastStepType, lastStepValidation] at hinvalid
  constructor
  · intro hlt
    simp only [lastStepType, lastStepValidation] at hlt
    simp only [continueFlow, hflow, hnode, hinvalid, lastStepType, lastStepValidation,
      Bool.false_eq_true, if_false]
    rw [if_pos hlt]
  · intro hge
    simp only [lastStepType, lastStepValidation] at hge
    simp only [continueFlow, hflow, hnode, hinvalid, lastStepType, lastStepValidation,
      Bool.false_eq_true, if_false]
    rw [if_neg hge]

/-- C4 amended: on a node whose last step carries no validation
record, the type-intrinsic checks run: an `Email Input` rejects (with
`"Please enter a valid email address."`) exactly those inputs missing
`@` or `.`, and a `Number Input` rejects (with `"Please enter a valid
number."`) exactly those inputs on which `strconv.ParseFloat` errors —
inputs such as `"Inf"`/`"NaN"` parse successfully and are accepted
even though they are not finite decimals. -/
theorem continueFlow_intrinsic_type_checks (re : RegexEngine) (fuel : Nat) (db : DB)
    (waID : String) (sessionID : Nat) (flowID currentNodeID input : String)
    (graph : FlowGraphData) (node : ReactFlowNode) (st : ReactFlowStep)
    (hflow : lookupFlow db flowID = some graph)
    (hnode : graph.nodes.find? (fun n => n.id == currentNodeID) = some node)
    (hlast : node.data.steps.getLast? = some st)
    (hval : st.validation = none)
    (hlt : getContextInt db sessionID (currentNodeID ++ "_retries") < 3) :
    (st.type_ = "Email Input" → (goContains input "@" && goContains input ".") = false →
      continueFlow re fuel db waID sessionID flowID currentNodeID input =
        some ⟨updateSessionContext db sessionID (currentNodeID ++ "_retries")
            (toString (intWrap64
              (getContextInt db sessionID (currentNodeID ++ "_retries") + 1))),
          [OutMsg.text waID "Please enter a valid email address."], none⟩) ∧
    (st.type_ = "Number Input" → goParseFloat input = none →
      continueFlow re fuel db waID sessionID flowID currentNodeID input =
        some ⟨updateSessionContext db sessionID (currentNodeID ++ "_retries")
            (toString (intWrap64
              (getContextInt db sessionID (currentNodeID ++ "_retries") + 1))),
          [OutMsg.text waID "Please enter a valid number."], none⟩) ∧
    (st.type_ = "Email Input" → (goContains input "@" && goContains input ".") = true →
      (computeValidation re input st.type_ none).isValid = true) ∧
    (st.type_ = "Number Input" → (goParseFloat input).isSome = true →
      (computeValidation re input st.type_ none).isValid = true) := by
  refine ⟨?_, ?_, ?_, ?_⟩
  · intro hty hc
    have hcv : computeValidation re input (lastStepType node) (lastStepValidation node) =
        ⟨false, "Please enter a valid email address.", 3⟩ := by
      simp [computeValidation, lastStepType, lastStepValidation, hlast, hval, hty, hc]
    have h := (continueFlow_invalid_branches re fuel db waID sessionID flowID currentNodeID
      input graph node hflow hnode (by rw [hcv])).1
    rw [hcv] at h
    exact h hlt
  · intro hty hc
    have hcv : computeValidation re input (lastStepType node) (lastStepValidation node) =
        ⟨false, "Please enter a valid number.", 3⟩ := by
      simp [computeValidation, lastStepType, lastStepValidation, hlast, hval, hty, hc]
    have h := (continueFlow_invalid_branches re fuel db waID sessionID flowID currentNodeID
      input graph node hflow hnode (by rw [hcv])).1
    rw [hcv] at h
    exact h hlt
  · intro hty hc
    simp [computeValidation, hty, hc]
  · intro hty hc
    obtain ⟨g, hg⟩ := Option.isSome_iff_exists.mp hc
    simp [computeValidation, hty, hg]

/-- Witness for `continueFlow_intrinsic_type_checks`: a `Number Input`
step with no validation record rejects `"abc"` with the default
message. -/
theorem continueFlow_intrinsic_type_checks_witness :
    goParseFloat "abc" = none ∧
    continueFlow ⟨fun _ _ => none⟩ 3
        ⟨[("F", ⟨[⟨"M", "custom", [], ⟨"", [{ type_ := "Number Input" }], true⟩⟩], []⟩)],
          [⟨1, "u", "F", "M", [], "active"⟩], [], [], 2⟩
        "u" 1 "F" "M" "abc" =
      some ⟨updateSessionContext
          ⟨[("F", ⟨[⟨"M", "custom", [], ⟨"", [{ type_ := "Number Input" }], true⟩⟩], []⟩)],
            [⟨1, "u", "F", "M", [], "active"⟩], [], [], 2⟩
          1 "M_retries" (toString (intWrap64 (0 + 1))),
        [OutMsg.text "u" "Please enter a valid number."], none⟩ :=
  ⟨by decide,
    (continueFlow_intrinsic_type_checks ⟨fun _ _ => none⟩ 3
      ⟨[("F", ⟨[⟨"M", "custom", [], ⟨"", [{ type_ := "Number Input" }], true⟩⟩], []⟩)],
        [⟨1, "u", "F", "M", [], "active"⟩], [], [], 2⟩
      "u" 1 "F" "M" "abc"
      ⟨[⟨"M", "custom", [], ⟨"", [{ type_ := "Number Input" }], true⟩⟩], []⟩
      ⟨"M", "custom", [], ⟨"", [{ type_ := "Number Input" }], true⟩⟩
      { type_ := "Number Input" }
      (by decide) (by decide) (by decide) (by decide) (by decide)).2.1 rfl (by decide)⟩

/-- No step of the list is a Chatbot step with a nonempty target flow
(such a step would short-circuit `ExecuteNode`). -/
def noChatbotJump (steps : List ReactFlowStep) : Bool :=
  steps.all (fun st => !(st.type_ == "Chatbot" && st.targetFlowId ≠ ""))

/-- Without an effective Chatbot step, the step loop only emits
messages: it falls through with the database unchanged. -/
theorem stepLoop_no_jump (db : DB) (waID : String) :
    ∀ steps : List ReactFlowStep, noChatbotJump steps = true →
      ∃ msgs, stepLoop db waID steps = StepOut.fell db msgs := by
  intro steps
  induction steps with
  | nil => intro _; exact ⟨[], rfl⟩
  | cons step rest ih =>
    intro h
    have hrest : noChatbotJump rest = true := by
      simp only [noChatbotJump, List.all_cons, Bool.and_eq_true] at h ⊢
      exact h.2
    obtain ⟨msgs, hmsgs⟩ := ih hrest
    by_cases h1 : (step.type_ == "Text" || step.type_ == "Text Message") = true
    · refine ⟨[OutMsg.text waID (replaceVariables db waID step.content)] ++ msgs, ?_⟩
      simp only [stepLoop]
      rw [if_pos h1, hmsgs]
      rfl
    · by_cases h2 : (step.type_ == "Quick Reply") = true
      · refine ⟨[OutMsg.buttons waID (replaceVariables db waID step.content)
          ((step.buttons.enum.take 3).map
            (fun p => ("btn_" ++ toString p.1, p.2.label)))] ++ msgs, ?_⟩
        simp only [stepLoop]
        rw [if_neg h1, if_pos h2, hmsgs]
        rfl
      · by_cases h3 : (step.type_ == "List") = true
        · by_cases hr : ((step.options.enum.take 10).map
              (fun p => ("opt_" ++ toString p.1, p.2.title, p.2.description))).length > 0
          · refine ⟨[OutMsg.list waID (replaceVariables db waID step.content)
              (if step.buttonText == "" then "Select an option" else step.buttonText)
              ((step.options.enum.take 10).map
                (fun p => ("opt_" ++ toString p.1, p.2.title, p.2.description)))] ++ msgs, ?_⟩
            simp only [stepLoop]
            rw [if_neg h1, if_neg h2, if_pos h3, if_pos hr, hmsgs]
            rfl
          · refine ⟨msgs, ?_⟩
            simp only [stepLoop]
            rw [if_neg h1, if_neg h2, if_pos h3, if_neg hr, hmsgs]
        · by_cases h4 : (step.type_ == "Chatbot") = true
          · have htf : ¬ step.targetFlowId ≠ "" := by
              simp only [noChatbotJump, List.all_cons, Bool.and_eq_true] at h
              have := h.1
              simp only [h4, Bool.not_eq_true', Bool.and_eq_false_iff] at this
              rcases this with hcontra | hflow0
              · simp [h4] at hcontra
              · simpa using hflow0
            refine ⟨msgs, ?_⟩
            simp only [stepLoop]
            rw [if_neg h1, if_neg h2, if_neg h3, if_pos h4, if_neg htf, hmsgs]
          · by_cases h5 : (step.type_ == "Image") = true
            · refine ⟨[OutMsg.text waID ("[Image] " ++ step.content)] ++ msgs, ?_⟩
              simp only [stepLoop]
              rw [if_neg h1, if_neg h2, if_neg h3, if_neg h4, if_pos h5, hmsgs]
              rfl
            · refine ⟨msgs, ?_⟩
              simp only [stepLoop]
              rw [if_neg h1, if_neg h2, if_neg h3, if_neg h4, if_neg h5, hmsgs]

/-- C10 amended: for a node containing no Chatbot step with a
nonempty target flow, `ExecuteNode` first emits the step messages
without touching the database, and then waits (returns with the
session state untouched) exactly when the node has at least one step
whose last type contains `"Input"` or equals `"Quick Reply"` or
`"List"`; otherwise — including for an empty step list — it proceeds
to the auto-advance/complete decision on `FindNextNodeID`. -/
theorem executeNode_wait_decision (fuel : Nat) (db : DB) (waID : String)
    (node : ReactFlowNode) (graph : FlowGraphData)
    (h : noChatbotJump node.data.steps = true) :
    ∃ msgs, stepLoop db waID node.data.steps = StepOut.fell db msgs ∧
      ((∀ st, node.data.steps.getLast? = some st →
          (goContains st.type_ "Input" || st.type_ == "Quick Reply" ||
            st.type_ == "List") = true →
          executeNode (fuel + 1) db waID node graph = some ⟨db, msgs, none⟩) ∧
       (∀ st, node.data.steps.getLast? = some st →
          (goContains st.type_ "Input" || st.type_ == "Quick Reply" ||
            st.type_ == "List") = false →
          executeNode (fuel + 1) db waID node graph =
            (if findNextNodeID node graph.edges "" ≠ "" then
              match executeNode fuel
                  (updateSessionCurrentNode db (activeSessionId db waID)
                    (findNextNodeID node graph.edges ""))
                  waID
                  ((graph.nodes.find?
                    (fun n => n.id == findNextNodeID node graph.edges "")).getD zeroNode)
                  graph with
              | none => none
              | some out => some ⟨out.db, msgs ++ out.msgs, out.err⟩
            else some ⟨terminateSessionByID db (activeSessionId db waID), msgs, none⟩)) ∧
       (node.data.steps = [] →
          executeNode (fuel + 1) db waID node graph =
            (if findNextNodeID node graph.edges "" ≠ "" then
              match executeNode fuel
                  (updateSessionCurrentNode db (activeSessionId db waID)
                    (findNextNodeID node graph.edges ""))
                  waID
                  ((graph.nodes.find?
                    (fun n => n.id == findNextNodeID node graph.edges "")).getD zeroNode)
                  graph with
              | none => none
              | some out => some ⟨out.db, msgs ++ out.msgs, out.err⟩
            else some ⟨terminateSessionByID db (activeSessionId db waID), msgs, none⟩))) := by
  obtain ⟨msgs, hmsgs⟩ := stepLoop_no_jump db waID node.data.steps h
  refine ⟨msgs, hmsgs, ?_, ?_, ?_⟩
  · intro st hlast hcond
    have hwait : waitsAfterSteps node.data.steps = true := by
      simp only [waitsAfterSteps, hlast]
      exact hcond
    simp only [executeNode, hmsgs, hwait, if_true]
  · intro st hlast hcond
    have hwait : waitsAfterSteps node.data.steps = false := by
      simp only [waitsAfterSteps, hlast]
      exact hcond
    simp only [executeNode, hmsgs, hwait, Bool.false_eq_true, if_false]
  · intro he
    have hwait : waitsAfterSteps node.data.steps = false := by
      rw [he]; rfl
    simp only [executeNode, hmsgs, hwait, Bool.false_eq_true, if_false]

/-- Witness for `executeNode_wait_decision`: a node whose single step
is a `Text Input` waits — the state is returned unchanged with no
messages. -/
theorem executeNode_wait_decision_witness :
    noChatbotJump [{ type_ := "Text Input" }] = true ∧
    executeNode 1 ⟨[], [], [], [], 1⟩ "u"
        ⟨"A", "custom", [], ⟨"", [{ type_ := "Text Input" }], true⟩⟩ ⟨[], []⟩ =
      some ⟨⟨[], [], [], [], 1⟩, [], none⟩ := by
  refine ⟨by decide, ?_⟩
  obtain ⟨msgs, hm, hwait, _, _⟩ := executeNode_wait_decision 0 ⟨[], [], [], [], 1⟩ "u"
    ⟨"A", "custom", [], ⟨"", [{ type_ := "Text Input" }], true⟩⟩ ⟨[], []⟩ (by decide)
  have h0 : stepLoop ⟨[], [], [], [], 1⟩ "u"
      (⟨"A", "custom", [], ⟨"", [{ type_ := "Text Input" }], true⟩⟩ : ReactFlowNode).data.steps =
      StepOut.fell ⟨[], [], [], [], 1⟩ [] := by decide
  have hmsgs : msgs = [] := by
    have := hm.symm.trans h0
    injection this
  subst hmsgs
  exact hwait { type_ := "Text Input" } rfl (by decide)

/-- C7 amended: for a payload whose first entry/change carries at
least one message, `HandleMessage` appends exactly one row to the
message log, with `wa_id` set to the provider message id, `sender` set
to the sending contact's WhatsApp id, status `"received"`, the raw
message type, and the content normalised per kind: the body for text,
the reply title for interactive button/list replies, and a bracketed
`[kind]` marker (no media id) for unrecognised kinds. -/
theorem handleMessage_log_entry_fields (db : DB) (m : InboundMessage)
    (ms : List InboundMessage) (cs : List WebhookChange) (es : List WebhookEntry) :
    (handleMessage db ⟨⟨⟨m :: ms⟩ :: cs⟩ :: es⟩).messages =
      db.messages ++ [⟨m.id, m.from_, inboundContent m, m.type_, "received"⟩] ∧
    (m.type_ = "text" → inboundContent m = m.textBody) ∧
    (∀ im, m.type_ = "image" → m.image = some im →
      inboundContent m =
        "[image]:" ++ im.id ++ (if im.caption ≠ "" then ":" ++ im.caption else "")) ∧
    (∀ iv b, m.type_ = "interactive" → m.interactive = some iv →
      iv.type_ = "button_reply" → iv.buttonReply = some b →
      inboundContent m = b.title) ∧
    (∀ iv l, m.type_ = "interactive" → m.interactive = some iv →
      iv.type_ = "list_reply" → iv.listReply = some l →
      inboundContent m = l.title) ∧
    (m.type_ ≠ "text" → m.type_ ≠ "image" → m.type_ ≠ "video" → m.type_ ≠ "audio" →
      m.type_ ≠ "document" → m.type_ ≠ "interactive" →
      inboundContent m = "[" ++ m.type_ ++ "]") := by
  refine ⟨?_, ?_, ?_, ?_, ?_, ?_⟩
  · cases hfind : db.contacts.find? (fun c => c.waId == m.from_) with
    | none => simp [handleMessage, hfind]
    | some c =>
      by_cases hn : (c.name == "" || c.name == c.waId) = true
      · simp [handleMessage, hfind, hn]
      · simp only [handleMessage, hfind]
        rw [if_neg hn]
  · intro h; simp [inboundContent, h]
  · intro im h him; simp [inboundContent, h, him]
  · intro iv b h hiv ht hb; simp [inboundContent, h, hiv, ht, hb]
  · intro iv l h hiv ht hl
    simp [inboundContent, h, hiv, ht, hl]
  · intro h1 h2 h3 h4 h5 h6
    simp [inboundContent, h1, h2, h3, h4, h5, h6]

/-- Witness for `handleMessage_log_entry_fields`: a sticker message is
logged with the provider id as `wa_id`, the sender as `sender`, and
content `"[sticker]"`. -/
theorem handleMessage_log_entry_fields_witness :
    (handleMessage ⟨[], [], [], [], 1⟩
        ⟨[⟨[⟨[{ id := "wamid.X", from_ := "15551234567", type_ := "sticker" }]⟩]⟩]⟩).messages =
      [⟨"wamid.X", "15551234567", "[sticker]", "sticker", "received"⟩] ∧
    inboundContent { id := "wamid.X", from_ := "15551234567", type_ := "sticker" } =
      "[sticker]" := by
  have h := handleMessage_log_entry_fields ⟨[], [], [], [], 1⟩
    { id := "wamid.X", from_ := "15551234567", type_ := "sticker" } [] [] []
  refine ⟨?_, ?_⟩
  · rw [h.1]; decide
  · exact h.2.2.2.2.2 (by decide) (by decide) (by decide) (by decide) (by decide) (by decide)
